import Mathlib

/-!
# The plc4x input plugin (`plugins/inputs/plc4x/plc4x.go`)

A shallow embedding of the plugin's configuration check (`Init`,
`createRequests`), its connection life cycle (`Start`, `Stop`), its read cycle
(`Gather`) and its value conversion (`convertSimpleValue`).

Conventions of the embedding:

* a method with a pointer receiver becomes a function that takes the plugin
  value and returns the updated plugin value next to its result;
* a Go `error` result is an `Option`: `none` is `nil`;
* errors made with `errors.New` and `fmt.Errorf` are kept as the call that made
  them (the format and its operands), errors of the driver library are kept as
  their text;
* calls on the driver library and on the accumulator are recorded, in order, as
  a list of `Action`s; what the library answers is an argument of the function;
* a run-time panic (a method called on a nil interface) is an explicit outcome;
* logging calls are left out: they only write diagnostics.
-/

namespace plc4x

/-! ## Data model -/

/-- A Go `map[string]string`, kept as the list of its entries. -/
abbrev StringMap := List (String × String)

/-- An error value built by the plugin: `errors.New(text)` or
`fmt.Errorf(format, args...)`, kept unrendered. -/
inductive GoError where
  | New (text : String)
  | Errorf (format : String) (args : List String)
  deriving DecidableEq, Repr

/-- The struct `fieldMapping`. -/
structure fieldMapping where
  measurement : String := ""
  field : String := ""
  tags : StringMap := []
  deriving DecidableEq, Repr

/-- The struct `metricFieldDefinition`. -/
structure metricFieldDefinition where
  Name : String
  Address : String
  Mapping : fieldMapping := {}
  deriving DecidableEq, Repr

/-- The struct `metricDefinition`. -/
structure metricDefinition where
  Name : String
  Fields : List metricFieldDefinition
  Tags : StringMap := []
  deriving DecidableEq, Repr

/-- The drivers the driver manager can be asked to register. -/
inductive Driver where
  | Ads | Bacnet | CBus | Eip | Knx | ModbusTcp | Opcua | S7
  deriving DecidableEq, Repr

/-- A built read request: the (name, address) pairs registered with the
builder, in registration order. -/
structure PlcReadRequest where
  tagAddresses : List (String × String)
  deriving DecidableEq, Repr

/-- The plugin struct `Plc4x`. `DriverManager` is `none` while the interface
value is nil, otherwise the drivers registered with it; `ReadRequest` is `none`
while the interface value is nil. `Timeout` is in nanoseconds. -/
structure Plc4x where
  Schema : String
  DomainName : String
  Parameters : List StringMap := []
  Timeout : Nat := 10000000000
  Configs : List metricDefinition
  Url : String := ""
  DriverManager : Option (List Driver) := none
  MetricFields : List metricFieldDefinition := []
  ReadRequest : Option PlcReadRequest := none
  deriving DecidableEq, Repr

/-! ## createRequests -/

/-- The inner loop of `createRequests` (`for _, f := range cfg.Fields`), on the
fields still to visit. `cfg` is the loop copy of the metric definition, after
the default name was applied; `checkFieldNameMap` is the map of that name in
the source. Returns the error of an early `return`, if any, and the plugin
with the fields appended so far. -/
def createRequests.fieldLoop (cfg : metricDefinition)
    (checkFieldNameMap : List (String × metricFieldDefinition)) :
    List metricFieldDefinition → Plc4x → Option GoError × Plc4x
  | [], s => (none, s)
  | f :: rest, s =>
    if f.Name = "" then
      (some (.Errorf "unnamed field in metric %q" [cfg.Name]), s)
    else
      let m : fieldMapping := { measurement := cfg.Name, field := f.Name, tags := cfg.Tags }
      let f : metricFieldDefinition := { f with Mapping := m }
      if (checkFieldNameMap.lookup f.Name).isSome then
        (some (.Errorf "duplicate field %q" [f.Name]), s)
      else
        createRequests.fieldLoop cfg checkFieldNameMap rest
          { s with MetricFields := s.MetricFields ++ [f] }

/-- The outer loop of `createRequests` (`for i, cfg := range s.Configs`), on
the metric definitions still to visit, `i` being the index of the first. -/
def createRequests.configLoop
    (checkFieldNameMap : List (String × metricFieldDefinition)) :
    Nat → List metricDefinition → Plc4x → Option GoError × Plc4x
  | _, [], s => (none, s)
  | i, cfg :: rest, s =>
    let cfg : metricDefinition := if cfg.Name = "" then { cfg with Name := "plc4x" } else cfg
    if cfg.Fields.length = 0 then
      (some (.Errorf "no fields defined for metric %q" [cfg.Name]), s)
    else
      match createRequests.fieldLoop cfg checkFieldNameMap cfg.Fields s with
      | (some err, s) => (some err, s)
      | (none, s) =>
        createRequests.configLoop checkFieldNameMap (i + 1) rest
          { s with Configs := s.Configs.set i cfg }

/-- The method `createRequests`. The map `checkFieldNameMap` is made empty and
the source never stores into it. -/
def createRequests (s : Plc4x) : Option GoError × Plc4x :=
  let checkFieldNameMap : List (String × metricFieldDefinition) := []
  match createRequests.configLoop checkFieldNameMap 0 s.Configs s with
  | (some err, s) => (some err, s)
  | (none, s) =>
    if s.MetricFields.length = 0 then
      (some (.Errorf "no fields defined for metric %q" []), s)
    else
      (none, s)

/-! ## fmt.Sprintf -/

/-- The rendering loop of `fmt.Sprintf` on the characters of the format, for
string operands and the verb `%s`, the only verb of the formats the plugin
renders into `Url`: an operand is written as it is, a verb without an operand
is written `%!s(MISSING)`, and operands left over at the end of the format are
listed as `%!(EXTRA string=..., ...)`. -/
def Sprintf.render : List Char → List String → String
  | [], [] => ""
  | [], a :: args =>
    "%!(EXTRA " ++ ", ".intercalate ((a :: args).map (fun x => "string=" ++ x)) ++ ")"
  | '%' :: 's' :: rest, a :: args => a ++ Sprintf.render rest args
  | '%' :: 's' :: rest, [] => "%!s(MISSING)" ++ Sprintf.render rest []
  | c :: rest, args => String.singleton c ++ Sprintf.render rest args

/-- The function `fmt.Sprintf`, for string operands. -/
def Sprintf (format : String) (args : List String) : String :=
  Sprintf.render format.data args

/-! ## Init -/

/-- The `switch s.Schema` of `Init`: the driver registered for a schema, `none`
for the `default` case. -/
def Init.registerDriver (schema : String) : Option Driver :=
  if schema = "ads" then some .Ads
  else if schema = "bacnet-ip" then some .Bacnet
  else if schema = "c-bus" then some .Bacnet
  else if schema = "eip" then some .Eip
  else if schema = "knxnet-ip" then some .Knx
  else if schema = "modbus-tcp" then some .ModbusTcp
  else if schema = "opcua" then some .Opcua
  else if schema = "s7" then some .S7
  else none

/-- The loop `for key, value := range m1` of `Init`, on the entries of one
parameter map in the order the iteration visits them: each round appends three
elements, the result of `fmt.Sprintf("%s=%s")`, the key and the value. -/
def Init.entryLoop : StringMap → List String → List String
  | [], parameterStrings => parameterStrings
  | (key, value) :: rest, parameterStrings =>
    Init.entryLoop rest (parameterStrings ++ [Sprintf "%s=%s" [], key, value])

/-- The loop `for _, m1 := range s.Parameters` of `Init`. -/
def Init.parameterLoop : List StringMap → List String → List String
  | [], parameterStrings => parameterStrings
  | m1 :: rest, parameterStrings =>
    Init.parameterLoop rest (Init.entryLoop m1 parameterStrings)

/-- The method `Init`. -/
def Init (s : Plc4x) : Option GoError × Plc4x :=
  if s.Schema = "" then
    (some (.New "'schema' has to be specified"), s)
  else if s.DomainName = "" then
    (some (.New "'domain_name' has to be specified"), s)
  else if s.Configs.length = 0 then
    (some (.New "no metric defined"), s)
  else
    match Init.registerDriver s.Schema with
    | none => (some (.New "unsupported protocol types"), s)
    | some driver =>
      let s : Plc4x := { s with DriverManager := some [driver] }
      let url := Sprintf "%s://%s" [s.Schema, s.DomainName]
      let url :=
        if s.Parameters.length > 0 then
          let parameterStrings := Init.parameterLoop s.Parameters []
          url ++ "?" ++ "&".intercalate parameterStrings
        else url
      let s : Plc4x := { s with Url := url }
      createRequests s

/-! ## Protocol values and convertSimpleValue -/

/-- The dynamic value `convertSimpleValue` returns inside its `interface{}`:
the Go type of the extractor that produced it and the value. `byte` is Go's
alias of `uint8`; `GetTime`, `GetDate` and `GetDateTime` all return a
`time.Time`. Floats are carried as their IEEE-754 bit patterns and times as
nanoseconds: the plugin never computes with them. -/
inductive GoValue where
  | bool (b : Bool)
  | uint8 (n : Nat)
  | int8 (i : Int)
  | int16 (i : Int)
  | int32 (i : Int)
  | int64 (i : Int)
  | uint32 (n : Nat)
  | uint64 (n : Nat)
  | float32 (bits : Nat)
  | float64 (bits : Nat)
  | string (s : String)
  | time (t : Int)
  | duration (d : Int)
  deriving DecidableEq, Repr

/-- The interface `values.PlcValue` of the driver library, as far as
`convertSimpleValue` uses it: what each kind predicate and each extractor
answers for the value. -/
structure PlcValue where
  IsNull : Bool := false
  IsBool : Bool := false
  IsByte : Bool := false
  IsUint8 : Bool := false
  IsInt16 : Bool := false
  IsUint32 : Bool := false
  IsUint64 : Bool := false
  IsInt8 : Bool := false
  IsInt32 : Bool := false
  IsInt64 : Bool := false
  IsFloat32 : Bool := false
  IsFloat64 : Bool := false
  IsString : Bool := false
  IsTime : Bool := false
  IsDuration : Bool := false
  IsDate : Bool := false
  IsDateTime : Bool := false
  GetBool : Bool := false
  GetByte : Nat := 0
  GetUint8 : Nat := 0
  GetUint32 : Nat := 0
  GetInt16 : Int := 0
  GetUint64 : Nat := 0
  GetInt8 : Int := 0
  GetInt32 : Int := 0
  GetInt64 : Int := 0
  GetFloat32 : Nat := 0
  GetFloat64 : Nat := 0
  GetString : String := ""
  GetTime : Int := 0
  GetDuration : Int := 0
  GetDate : Int := 0
  GetDateTime : Int := 0
  deriving DecidableEq, Repr

/-- The function `convertSimpleValue`; `none` is the nil interface. -/
def convertSimpleValue (value : PlcValue) : Option GoValue :=
  if value.IsNull then none
  else if value.IsBool then some (.bool value.GetBool)
  else if value.IsByte then some (.uint8 value.GetByte)
  else if value.IsUint8 then some (.uint8 value.GetUint8)
  else if value.IsInt16 then some (.uint32 value.GetUint32)
  else if value.IsUint32 then some (.int16 value.GetInt16)
  else if value.IsUint64 then some (.uint64 value.GetUint64)
  else if value.IsInt8 then some (.int8 value.GetInt8)
  else if value.IsInt16 then some (.int16 value.GetInt16)
  else if value.IsInt32 then some (.int32 value.GetInt32)
  else if value.IsInt64 then some (.int64 value.GetInt64)
  else if value.IsFloat32 then some (.float32 value.GetFloat32)
  else if value.IsFloat64 then some (.float64 value.GetFloat64)
  else if value.IsString then some (.string value.GetString)
  else if value.IsTime then some (.time value.GetTime)
  else if value.IsDuration then some (.duration value.GetDuration)
  else if value.IsDate then some (.time value.GetDate)
  else if value.IsDateTime then some (.time value.GetDateTime)
  else none

/-- The kinds of protocol value `convertSimpleValue` has a branch for. -/
inductive Kind where
  | bool | byte | uint8 | int8 | int16 | int32 | int64 | uint32 | uint64
  | float32 | float64 | string | time | duration | date | dateTime
  deriving DecidableEq, Repr

/-- All kinds. -/
def Kind.all : List Kind :=
  [.bool, .byte, .uint8, .int8, .int16, .int32, .int64, .uint32, .uint64,
   .float32, .float64, .string, .time, .duration, .date, .dateTime]

/-- The kind predicate of the library for a kind (`IsBool`, `IsByte`, ...). -/
def PlcValue.is (value : PlcValue) : Kind → Bool
  | .bool => value.IsBool
  | .byte => value.IsByte
  | .uint8 => value.IsUint8
  | .int8 => value.IsInt8
  | .int16 => value.IsInt16
  | .int32 => value.IsInt32
  | .int64 => value.IsInt64
  | .uint32 => value.IsUint32
  | .uint64 => value.IsUint64
  | .float32 => value.IsFloat32
  | .float64 => value.IsFloat64
  | .string => value.IsString
  | .time => value.IsTime
  | .duration => value.IsDuration
  | .date => value.IsDate
  | .dateTime => value.IsDateTime

/-- The extractor of the library for a kind (`GetBool`, `GetByte`, ...), with
the Go type it returns. -/
def PlcValue.get (value : PlcValue) : Kind → GoValue
  | .bool => .bool value.GetBool
  | .byte => .uint8 value.GetByte
  | .uint8 => .uint8 value.GetUint8
  | .int8 => .int8 value.GetInt8
  | .int16 => .int16 value.GetInt16
  | .int32 => .int32 value.GetInt32
  | .int64 => .int64 value.GetInt64
  | .uint32 => .uint32 value.GetUint32
  | .uint64 => .uint64 value.GetUint64
  | .float32 => .float32 value.GetFloat32
  | .float64 => .float64 value.GetFloat64
  | .string => .string value.GetString
  | .time => .time value.GetTime
  | .duration => .duration value.GetDuration
  | .date => .time value.GetDate
  | .dateTime => .time value.GetDateTime

/-- A protocol value of exactly one kind: it is not the null value, the
predicate of `k` holds of it and the predicate of no other kind does. -/
def PlcValue.hasSingleKind (value : PlcValue) (k : Kind) : Bool :=
  !value.IsNull && Kind.all.all (fun j => value.is j == decide (j = k))

/-! ## The series grouper -/

/-- A metric as the grouper hands it out: measurement, tags, timestamp and the
fields with their values, in the order the fields first arrived. -/
structure Metric where
  measurement : String
  tags : StringMap
  tm : Nat
  fields : List (String × GoValue)
  deriving DecidableEq, Repr

/-- Modelled from the spec: the series grouper (`metric.SeriesGrouper`, whose
source is not among the files read here). Its state is the metrics assembled so
far, in the order their grouping keys first arrived. -/
structure SeriesGrouper where
  metrics : List Metric
  deriving DecidableEq, Repr

/-- Modelled from the spec: `metric.NewSeriesGrouper()`, a grouper that holds
nothing. -/
def NewSeriesGrouper : SeriesGrouper := { metrics := [] }

/-- Modelled from the spec: two tag sets have the same content. -/
def SeriesGrouper.sameTags (a b : StringMap) : Bool :=
  a.all (fun p => b.contains p) && b.all (fun p => a.contains p)

/-- Modelled from the spec: storing a field into a field map, the later value
of a field name replacing the earlier one. -/
def SeriesGrouper.setField (field : String) (value : GoValue) :
    List (String × GoValue) → List (String × GoValue)
  | [] => [(field, value)]
  | (k, v) :: rest =>
    if k = field then (k, value) :: rest
    else (k, v) :: SeriesGrouper.setField field value rest

/-- Modelled from the spec: adding a reading to the metrics assembled so far;
it joins the metric of the same measurement, tag content and timestamp, or
starts a new metric after the others. -/
def SeriesGrouper.addTo (measurement : String) (tags : StringMap) (tm : Nat)
    (field : String) (value : GoValue) : List Metric → List Metric
  | [] => [{ measurement := measurement, tags := tags, tm := tm, fields := [(field, value)] }]
  | m :: rest =>
    if m.measurement = measurement ∧ SeriesGrouper.sameTags m.tags tags = true ∧ m.tm = tm then
      { m with fields := SeriesGrouper.setField field value m.fields } :: rest
    else
      m :: SeriesGrouper.addTo measurement tags tm field value rest

/-- Modelled from the spec: `SeriesGrouper.Add`. -/
def SeriesGrouper.Add (g : SeriesGrouper) (measurement : String) (tags : StringMap)
    (tm : Nat) (field : String) (value : GoValue) : SeriesGrouper :=
  { metrics := SeriesGrouper.addTo measurement tags tm field value g.metrics }

/-- Modelled from the spec: `SeriesGrouper.Metrics`, the metrics assembled. -/
def SeriesGrouper.Metrics (g : SeriesGrouper) : List Metric := g.metrics

/-! ## The driver library as the plugin sees it -/

/-- A response code of one field of a read response: `PlcResponseCode_OK` or
any other code, kept by its name. -/
inductive PlcResponseCode where
  | OK
  | other (name : String)
  deriving DecidableEq, Repr

/-- A connection: what `GetMetadata().CanRead()` answers, and what the
`Build()` of a read-request builder answers once the given (name, address)
pairs were registered with it, a request or the text of an error. -/
structure PlcConnection where
  CanRead : Bool
  Build : List (String × String) → Except String PlcReadRequest

/-- What the channel of `GetConnection` delivers: `GetErr()` (the text of the
error, `none` for nil) and `GetConnection()` (`none` for nil). -/
structure PlcConnectionConnectResult where
  GetErr : Option String
  GetConnection : Option PlcConnection

/-- A read response: the code and the value it holds for each field name. -/
structure PlcReadResponse where
  GetResponseCode : String → PlcResponseCode
  GetValue : String → PlcValue

/-- What the channel of `ExecuteWithContext` delivers: `GetErr()` (the text of
the error, `none` for nil) and `GetResponse()` (`none` for nil). -/
structure PlcReadRequestResult where
  GetErr : Option String
  GetResponse : Option PlcReadResponse

/-- Which case of the `select` in `Gather` proceeds: the context is done (the
deadline fired first), or the channel of the read request delivered. -/
inductive SelectCase where
  | ctxDone
  | received (rrr : PlcReadRequestResult)

/-- A call the plugin makes on the driver library, the grouper or the
accumulator. -/
inductive Action where
  | Close
  | GetConnection (url : String)
  | ReadRequestBuilder
  | AddTagAddress (name address : String)
  | Build
  | ExecuteWithContext (request : PlcReadRequest)
  | GrouperAdd (measurement : String) (tags : StringMap) (tm : Nat) (field : String)
      (value : GoValue)
  | AddMetric (m : Metric)
  deriving DecidableEq, Repr

/-- How a call of a method ends: it returns its `error` result, or it panics. -/
inductive Outcome where
  | returned (err : Option GoError)
  | panicked
  deriving DecidableEq, Repr

/-- A finished call of a method: how it ended, the plugin it leaves and the
calls it made, in order. -/
structure Run where
  outcome : Outcome
  plugin : Plc4x
  actions : List Action
  deriving DecidableEq, Repr

/-- The metrics handed to the accumulator among some calls, in order. -/
def emitted : List Action → List Metric
  | [] => []
  | .AddMetric m :: rest => m :: emitted rest
  | _ :: rest => emitted rest

/-- The readings handed to the grouper among some calls, in order. -/
def grouped : List Action → List (String × StringMap × Nat × String × GoValue)
  | [] => []
  | .GrouperAdd measurement tags tm field value :: rest =>
    (measurement, tags, tm, field, value) :: grouped rest
  | _ :: rest => grouped rest

/-- The number of read executions among some calls. -/
def executions : List Action → Nat
  | [] => 0
  | .ExecuteWithContext _ :: rest => executions rest + 1
  | _ :: rest => executions rest

/-- The number of connection attempts among some calls. -/
def connects : List Action → Nat
  | [] => 0
  | .GetConnection _ :: rest => connects rest + 1
  | _ :: rest => connects rest

/-! ## Start, Stop, Gather -/

/-- The method `Start`; `crc` is what the channel of `GetConnection` delivers.
Calling `GetConnection` on a nil driver manager, `GetMetadata` on a nil
connection or `Error` on a nil error panics. -/
def Start (s : Plc4x) (crc : PlcConnectionConnectResult) : Run :=
  match s.DriverManager with
  | none => { outcome := .panicked, plugin := s, actions := [] }
  | some _ =>
    let connectionResult := crc
    let actions : List Action := [.GetConnection s.Url]
    match connectionResult.GetErr with
    | some text =>
      { outcome := .returned (some (.Errorf "error connecting to PLC: %s" [text])),
        plugin := s, actions := actions }
    | none =>
      match connectionResult.GetConnection with
      | none => { outcome := .panicked, plugin := s, actions := actions }
      | some connection =>
        if !connection.CanRead then
          { outcome := .returned (some (.Errorf
              "This connection %s doesn't support read operations" [s.Url])),
            plugin := s, actions := actions }
        else
          let actions := actions ++ [.ReadRequestBuilder]
            ++ s.MetricFields.map (fun field => .AddTagAddress field.Name field.Address)
            ++ [.Build]
          match connection.Build (s.MetricFields.map (fun field => (field.Name, field.Address))) with
          | .error _ =>
            match connectionResult.GetErr with
            | none => { outcome := .panicked, plugin := s, actions := actions }
            | some text =>
              { outcome := .returned (some (.Errorf "error preparing read-request: %s" [text])),
                plugin := s, actions := actions }
          | .ok readRequest =>
            { outcome := .returned none, plugin := { s with ReadRequest := some readRequest },
              actions := actions }

/-- The method `Stop`: the calls it makes. -/
def Stop (s : Plc4x) : List Action :=
  match s.DriverManager with
  | none => []
  | some _ => [.Close]

/-- The loop `for i, b := range s.MetricFields` of `Gather`, on the fields
still to visit, with the grouper and the calls made so far. The result is
`none` next to the calls made when the loop panics (`GetResponseCode` called on
a nil response). -/
def Gather.fieldLoop (rrr : PlcReadRequestResult) (timestamp : Nat) :
    List metricFieldDefinition → SeriesGrouper → List Action →
    Option SeriesGrouper × List Action
  | [], grouper, actions => (some grouper, actions)
  | b :: rest, grouper, actions =>
    match rrr.GetResponse with
    | none => (none, actions)
    | some response =>
      if response.GetResponseCode b.Name ≠ .OK then
        Gather.fieldLoop rrr timestamp rest grouper actions
      else
        let result := response.GetValue b.Name
        match convertSimpleValue result with
        | some value =>
          Gather.fieldLoop rrr timestamp rest
            (grouper.Add b.Mapping.measurement b.Mapping.tags timestamp b.Mapping.field value)
            (actions ++ [.GrouperAdd b.Mapping.measurement b.Mapping.tags timestamp
              b.Mapping.field value])
        | none => Gather.fieldLoop rrr timestamp rest grouper actions

/-- The method `Gather`. `now` is what `time.Now()` answers; `exec k` is the
case of the `select` that proceeds for the read execution number `k` of this
call (from 0), and `crc` is what the channel of `GetConnection` delivers should
the call reconnect. Calling `ExecuteWithContext` on a nil read request
panics. -/
def Gather (s : Plc4x) (now : Nat) (exec : Nat → SelectCase)
    (crc : PlcConnectionConnectResult) : Run :=
  let timestamp := now
  let grouper := NewSeriesGrouper
  match s.ReadRequest with
  | none => { outcome := .panicked, plugin := s, actions := [] }
  | some request =>
    let actions : List Action := [.ExecuteWithContext request]
    match exec 0 with
    | .ctxDone =>
      { outcome := .returned (some (.Errorf "read fields timeout" [])), plugin := s,
        actions := actions }
    | .received rrr =>
      if rrr.GetErr.isSome then
        let actions := actions ++ Stop s
        let started := Start s crc
        { started with actions := actions ++ started.actions }
      else
        match Gather.fieldLoop rrr timestamp s.MetricFields grouper actions with
        | (none, actions) => { outcome := .panicked, plugin := s, actions := actions }
        | (some grouper, actions) =>
          { outcome := .returned none, plugin := s,
            actions := actions ++ grouper.Metrics.map (fun x => .AddMetric x) }

/-! ## Descriptions used by the statements -/

/-- The name of a metric definition once the default was applied. -/
def defaultName (name : String) : String := if name = "" then "plc4x" else name

/-- A configured field with the mapping `createRequests` gives it. -/
def mappedField (cfg : metricDefinition) (f : metricFieldDefinition) : metricFieldDefinition :=
  { f with Mapping := { measurement := defaultName cfg.Name, field := f.Name, tags := cfg.Tags } }

/-- The configured fields of a metric definition with their mappings. -/
def mappedFields (cfg : metricDefinition) : List metricFieldDefinition :=
  cfg.Fields.map (mappedField cfg)

/-- The configuration after the outer loop wrote back the metric definitions
`cs`, the first at index `i`. -/
def rewriteConfigs : Nat → List metricDefinition → List metricDefinition → List metricDefinition
  | _, [], configs => configs
  | i, c :: cs, configs =>
    rewriteConfigs (i + 1) cs (configs.set i { c with Name := defaultName c.Name })

/-- The readings a read response yields for a list of fields: one for each
field whose response code is OK and whose value `convertSimpleValue` turns into
a value, in the order of the list. -/
def readingsOf (response : PlcReadResponse) (timestamp : Nat)
    (fields : List metricFieldDefinition) : List (String × StringMap × Nat × String × GoValue) :=
  fields.filterMap (fun b =>
    if response.GetResponseCode b.Name = .OK then
      (convertSimpleValue (response.GetValue b.Name)).map
        (fun value => (b.Mapping.measurement, b.Mapping.tags, timestamp, b.Mapping.field, value))
    else none)

/-- The call of the grouper that hands it a reading. -/
def readingAction (r : String × StringMap × Nat × String × GoValue) : Action :=
  .GrouperAdd r.1 r.2.1 r.2.2.1 r.2.2.2.1 r.2.2.2.2

/-- The grouper after a reading was added to it. -/
def addReading (g : SeriesGrouper) (r : String × StringMap × Nat × String × GoValue) :
    SeriesGrouper :=
  g.Add r.1 r.2.1 r.2.2.1 r.2.2.2.1 r.2.2.2.2

/-- The source line of the `return` statement a call of `convertSimpleValue`
leaves through, following the same chain of tests as the function. -/
def convertSimpleValue.returnLine (value : PlcValue) : Nat :=
  if value.IsNull then 200
  else if value.IsBool then 204
  else if value.IsByte then 208
  else if value.IsUint8 then 211
  else if value.IsInt16 then 214
  else if value.IsUint32 then 217
  else if value.IsUint64 then 220
  else if value.IsInt8 then 223
  else if value.IsInt16 then 226
  else if value.IsInt32 then 229
  else if value.IsInt64 then 232
  else if value.IsFloat32 then 236
  else if value.IsFloat64 then 239
  else if value.IsString then 243
  else if value.IsTime then 247
  else if value.IsDuration then 250
  else if value.IsDate then 253
  else if value.IsDateTime then 256
  else 259

/-- The value the `return` statement at a source line of `convertSimpleValue`
returns. -/
def convertSimpleValue.returnedAt (value : PlcValue) (line : Nat) : Option GoValue :=
  if line = 204 then some (.bool value.GetBool)
  else if line = 208 then some (.uint8 value.GetByte)
  else if line = 211 then some (.uint8 value.GetUint8)
  else if line = 214 then some (.uint32 value.GetUint32)
  else if line = 217 then some (.int16 value.GetInt16)
  else if line = 220 then some (.uint64 value.GetUint64)
  else if line = 223 then some (.int8 value.GetInt8)
  else if line = 226 then some (.int16 value.GetInt16)
  else if line = 229 then some (.int32 value.GetInt32)
  else if line = 232 then some (.int64 value.GetInt64)
  else if line = 236 then some (.float32 value.GetFloat32)
  else if line = 239 then some (.float64 value.GetFloat64)
  else if line = 243 then some (.string value.GetString)
  else if line = 247 then some (.time value.GetTime)
  else if line = 250 then some (.duration value.GetDuration)
  else if line = 253 then some (.time value.GetDate)
  else if line = 256 then some (.time value.GetDateTime)
  else none

/-- A protocol value that `convertSimpleValue` has no branch for: the null
value, or a value of which no kind predicate holds. -/
def PlcValue.hasNoKind (value : PlcValue) : Bool :=
  value.IsNull || Kind.all.all (fun k => !value.is k)

/-- The schema identifiers the `switch` of `Init` has a case for. -/
def Init.supportedSchemas : List String :=
  ["ads", "bacnet-ip", "c-bus", "eip", "knxnet-ip", "modbus-tcp", "opcua", "s7"]

/-- The field name and value of a reading. -/
def readingField (r : String × StringMap × Nat × String × GoValue) : String × GoValue :=
  (r.2.2.2.1, r.2.2.2.2)

/-- The field map after the fields of some readings were stored, one after
the other. -/
def storeFields (fields : List (String × GoValue))
    (rs : List (String × StringMap × Nat × String × GoValue)) : List (String × GoValue) :=
  rs.foldl (fun acc r => SeriesGrouper.setField r.2.2.2.1 r.2.2.2.2 acc) fields

/-! ## Example inputs -/

/-- One metric whose two fields are both named `a`. -/
def exampleDuplicateWithin : Plc4x :=
  { Schema := "s7", DomainName := "host",
    Configs := [{ Name := "m", Fields := [{ Name := "a", Address := "x" },
                                          { Name := "a", Address := "y" }] }] }

/-- Two metrics that each have a field named `a`. -/
def exampleDuplicateAcross : Plc4x :=
  { Schema := "s7", DomainName := "host",
    Configs := [{ Name := "m1", Fields := [{ Name := "a", Address := "x" }] },
                { Name := "m2", Fields := [{ Name := "a", Address := "y" }] }] }

/-- Two metrics with three fields of distinct names; the second metric has no
name of its own. -/
def exampleValid : Plc4x :=
  { Schema := "s7", DomainName := "host",
    Configs := [{ Name := "m", Fields := [{ Name := "a", Address := "x" },
                                          { Name := "b", Address := "y" }],
                  Tags := [("unit", "1")] },
                { Name := "", Fields := [{ Name := "c", Address := "z" }] }] }

/-- A metric with an unnamed field, followed by a metric without fields. -/
def exampleUnnamedThenEmpty : Plc4x :=
  { Schema := "s7", DomainName := "host",
    Configs := [{ Name := "a", Fields := [{ Name := "", Address := "x" }] },
                { Name := "b", Fields := [] }] }

/-- A metric without fields, followed by a metric with an unnamed field. -/
def exampleEmptyThenUnnamed : Plc4x :=
  { Schema := "s7", DomainName := "host",
    Configs := [{ Name := "a", Fields := [] },
                { Name := "b", Fields := [{ Name := "", Address := "x" }] }] }

/-- A valid metric, followed by a metric without fields and without a name. -/
def exampleValidThenEmpty : Plc4x :=
  { Schema := "s7", DomainName := "host",
    Configs := [{ Name := "m", Fields := [{ Name := "a", Address := "x" }] },
                { Name := "", Fields := [] }] }

/-- A valid metric, followed by a metric without a name whose second field is
unnamed. -/
def exampleValidThenUnnamed : Plc4x :=
  { Schema := "s7", DomainName := "host",
    Configs := [{ Name := "m", Fields := [{ Name := "a", Address := "x" }] },
                { Name := "", Fields := [{ Name := "b", Address := "y" },
                                         { Name := "", Address := "z" }] }] }

/-- A protocol value of the one kind 16-bit signed, holding -5. -/
def exampleInt16 : PlcValue := { IsInt16 := true, GetInt16 := -5 }

/-- A protocol value of the one kind 32-bit unsigned, holding 70000. -/
def exampleUint32 : PlcValue := { IsUint32 := true, GetUint32 := 70000 }

/-- The configuration `exampleValid` with two parameter maps of one key. -/
def exampleParameters : Plc4x :=
  { exampleValid with Parameters := [[("rack", "0")], [("slot", "1")]] }

/-- A connection attempt that succeeds, with a connection that can read and
whose builder builds the request of the registered pairs. -/
def exampleConnected : PlcConnectionConnectResult :=
  { GetErr := none,
    GetConnection := some { CanRead := true, Build := fun pairs => .ok { tagAddresses := pairs } } }

/-- A connection attempt that succeeds, with a connection that can read and
whose builder fails. -/
def exampleBuildFails : PlcConnectionConnectResult :=
  { GetErr := none,
    GetConnection := some { CanRead := true, Build := fun _ => .error "invalid tag address" } }

/-- The plugin of `exampleValid` after `Init` and a successful `Start`. -/
def exampleReady : Plc4x := (Start (Init exampleValid).2 exampleConnected).plugin

/-- A read response: field `a` reads the 64-bit float 21.5, field `b` has a bad
address, field `c` reads the boolean true. -/
def exampleResponse : PlcReadResponse :=
  { GetResponseCode := fun name => if name = "b" then .other "INVALID_ADDRESS" else .OK,
    GetValue := fun name =>
      if name = "a" then { IsFloat64 := true, GetFloat64 := 4626744929681408000 }
      else if name = "c" then { IsBool := true, GetBool := true }
      else { IsNull := true } }

/-- A cycle whose read delivers `exampleResponse`. -/
def exampleExecOk : Nat → SelectCase :=
  fun _ => .received { GetErr := none, GetResponse := some exampleResponse }

/-- A cycle whose deadline fires first. -/
def exampleExecTimeout : Nat → SelectCase := fun _ => .ctxDone

/-- A cycle whose first read ends with a transport error and whose later reads
would deliver `exampleResponse`. -/
def exampleExecErrorThenOk : Nat → SelectCase :=
  fun k =>
    if k = 0 then .received { GetErr := some "connection reset", GetResponse := none }
    else .received { GetErr := none, GetResponse := some exampleResponse }

/-- A protocol value for which no kind predicate holds. -/
def exampleNoKind : PlcValue := { GetString := "raw" }

/-- A protocol value of the one kind 32-bit float, holding 3.5. -/
def exampleFloat32 : PlcValue := { IsFloat32 := true, GetFloat32 := 1080033280 }

/-- A protocol value that is both 16-bit signed and 32-bit unsigned. -/
def exampleInt16AndUint32 : PlcValue :=
  { IsInt16 := true, IsUint32 := true, GetInt16 := 7, GetUint32 := 7 }

/-- The configuration `exampleValid` with the schema `c-bus`. -/
def exampleCBus : Plc4x := { exampleValid with Schema := "c-bus" }

/-- A connection attempt that fails. -/
def exampleConnectFails : PlcConnectionConnectResult :=
  { GetErr := some "connection refused", GetConnection := none }

/-- A connection attempt that succeeds, with a connection that cannot read. -/
def exampleCannotRead : PlcConnectionConnectResult :=
  { GetErr := none,
    GetConnection := some { CanRead := false, Build := fun pairs => .ok { tagAddresses := pairs } } }

/-- A read response: field `a` reads the null value, field `b` a value of no
kind, field `c` the boolean true. -/
def exampleResponseNoValue : PlcReadResponse :=
  { GetResponseCode := fun _ => .OK,
    GetValue := fun name =>
      if name = "a" then { IsNull := true }
      else if name = "c" then { IsBool := true, GetBool := true }
      else exampleNoKind }

/-- A cycle whose read delivers `exampleResponseNoValue`. -/
def exampleExecNoValue : Nat → SelectCase :=
  fun _ => .received { GetErr := none, GetResponse := some exampleResponseNoValue }

/-- A metric without fields, the only one of its configuration. -/
def exampleOnlyEmpty : Plc4x :=
  { Schema := "s7", DomainName := "host", Configs := [{ Name := "m", Fields := [] }] }

/-- A plugin with one metric `m`, tagged unit=1, of the fields `temp` and
`level`, after `Init` and a successful `Start`. -/
def exampleOneMetric : Plc4x :=
  (Start (Init { Schema := "s7", DomainName := "host",
                 Configs := [{ Name := "m",
                               Fields := [{ Name := "temp", Address := "x" },
                                          { Name := "level", Address := "y" }],
                               Tags := [("unit", "1")] }] }).2 exampleConnected).plugin

/-- A read response: field `temp` reads the 64-bit float 21.5, every other
field has a bad address. -/
def exampleResponseOneOk : PlcReadResponse :=
  { GetResponseCode := fun name => if name = "temp" then .OK else .other "BAD_ADDRESS",
    GetValue := fun _ => { IsFloat64 := true, GetFloat64 := 4626744929681408000 } }

/-- A read response: field `temp` reads the 64-bit float 21.5 and every other
field the 32-bit integer 7. -/
def exampleResponseBothOk : PlcReadResponse :=
  { GetResponseCode := fun _ => .OK,
    GetValue := fun name =>
      if name = "temp" then { IsFloat64 := true, GetFloat64 := 4626744929681408000 }
      else { IsInt32 := true, GetInt32 := 7 } }

/-- A cycle whose read delivers `exampleResponseOneOk`. -/
def exampleExecOneOk : Nat → SelectCase :=
  fun _ => .received { GetErr := none, GetResponse := some exampleResponseOneOk }

/-- A cycle whose read delivers `exampleResponseBothOk`. -/
def exampleExecBothOk : Nat → SelectCase :=
  fun _ => .received { GetErr := none, GetResponse := some exampleResponseBothOk }

/-! ## Lemmas on the loops of createRequests -/

/-- On fields that all have a name, the inner loop returns no error and appends
each field with its mapping. -/
theorem fieldLoop_named (cfg : metricDefinition) (fields : List metricFieldDefinition)
    (s : Plc4x) (h : ∀ f ∈ fields, f.Name ≠ "") :
    createRequests.fieldLoop cfg [] fields s =
      (none, { s with MetricFields := s.MetricFields ++ fields.map (fun f =>
        { f with Mapping := { measurement := cfg.Name, field := f.Name, tags := cfg.Tags } }) }) := by
  induction fields generalizing s with
  | nil => simp [createRequests.fieldLoop]
  | cons f rest ih =>
    have hf : f.Name ≠ "" := h f (List.mem_cons_self _ _)
    have hrest : ∀ g ∈ rest, g.Name ≠ "" := fun g hg => h g (List.mem_cons_of_mem _ hg)
    simp [createRequests.fieldLoop, hf, ih _ hrest]

/-- On fields one of which has no name, the inner loop returns the unnamed-field
error of the metric. -/
theorem fieldLoop_unnamed (cfg : metricDefinition) (fields : List metricFieldDefinition)
    (s : Plc4x) (h : ∃ f ∈ fields, f.Name = "") :
    (createRequests.fieldLoop cfg [] fields s).1 =
      some (.Errorf "unnamed field in metric %q" [cfg.Name]) := by
  induction fields generalizing s with
  | nil => simp at h
  | cons f rest ih =>
    by_cases hf : f.Name = ""
    · simp [createRequests.fieldLoop, hf]
    · have hrest : ∃ g ∈ rest, g.Name = "" := by
        obtain ⟨g, hg, hname⟩ := h
        rcases List.mem_cons.mp hg with rfl | hg
        · exact absurd hname hf
        · exact ⟨g, hg, hname⟩
      simp [createRequests.fieldLoop, hf, ih _ hrest]

/-- One round of the outer loop on a metric that has fields, all named: its
fields are appended and the metric is written back with its default applied. -/
theorem configLoop_step_valid (i : Nat) (c : metricDefinition) (rest : List metricDefinition)
    (s : Plc4x) (hne : c.Fields ≠ []) (hnamed : ∀ f ∈ c.Fields, f.Name ≠ "") :
    createRequests.configLoop [] i (c :: rest) s =
      createRequests.configLoop [] (i + 1) rest
        { s with MetricFields := s.MetricFields ++ mappedFields c,
                 Configs := s.Configs.set i { c with Name := defaultName c.Name } } := by
  have hlen : c.Fields.length ≠ 0 := by simpa using hne
  have hmap : mappedFields c = c.Fields.map (fun f => { f with Mapping :=
      { measurement := defaultName c.Name, field := f.Name, tags := c.Tags } }) := rfl
  rw [hmap]
  by_cases hname : c.Name = ""
  · simp [createRequests.configLoop, hname, hlen, fieldLoop_named _ _ _ hnamed, defaultName]
  · simp [createRequests.configLoop, hname, hlen, fieldLoop_named _ _ _ hnamed, defaultName]

/-- The outer loop passes over a run of metrics that have fields, all named,
appending their fields and writing the metrics back. -/
theorem configLoop_valid (pre rest : List metricDefinition) (i : Nat) (s : Plc4x)
    (hpre : ∀ c ∈ pre, c.Fields ≠ [] ∧ ∀ f ∈ c.Fields, f.Name ≠ "") :
    createRequests.configLoop [] i (pre ++ rest) s =
      createRequests.configLoop [] (i + pre.length) rest
        { s with MetricFields := s.MetricFields ++ pre.flatMap mappedFields,
                 Configs := rewriteConfigs i pre s.Configs } := by
  induction pre generalizing i s with
  | nil => simp [rewriteConfigs]
  | cons c cs ih =>
    have hc := hpre c (List.mem_cons_self _ _)
    have hcs : ∀ d ∈ cs, d.Fields ≠ [] ∧ ∀ f ∈ d.Fields, f.Name ≠ "" :=
      fun d hd => hpre d (List.mem_cons_of_mem _ hd)
    rw [List.cons_append, configLoop_step_valid i c _ s hc.1 hc.2, ih _ _ hcs]
    simp [rewriteConfigs, List.append_assoc, Nat.add_assoc, Nat.add_comm 1]

/-- The outer loop stops at a metric without fields with the missing-fields
error of that metric. -/
theorem configLoop_step_empty (i : Nat) (c : metricDefinition) (rest : List metricDefinition)
    (s : Plc4x) (h : c.Fields = []) :
    createRequests.configLoop [] i (c :: rest) s =
      (some (.Errorf "no fields defined for metric %q" [defaultName c.Name]), s) := by
  by_cases hname : c.Name = "" <;> simp [createRequests.configLoop, hname, h, defaultName]

/-- The outer loop stops at a metric with an unnamed field with the
unnamed-field error of that metric. -/
theorem configLoop_step_unnamed (i : Nat) (c : metricDefinition) (rest : List metricDefinition)
    (s : Plc4x) (h : ∃ f ∈ c.Fields, f.Name = "") :
    (createRequests.configLoop [] i (c :: rest) s).1 =
      some (.Errorf "unnamed field in metric %q" [defaultName c.Name]) := by
  have hlen : c.Fields.length ≠ 0 := by
    obtain ⟨f, hf, _⟩ := h
    intro h0
    rw [List.length_eq_zero.mp h0] at hf
    simp at hf
  have hloop := fieldLoop_unnamed { c with Name := defaultName c.Name } c.Fields s h
  by_cases hname : c.Name = ""
  · simp only [defaultName, hname, if_true] at hloop ⊢
    simp only [createRequests.configLoop, hname, if_true, hlen, if_false]
    cases hfl : createRequests.fieldLoop { c with Name := "plc4x" } [] c.Fields s with
    | mk e s2 =>
      rw [hfl] at hloop
      simp only at hloop
      subst hloop
      rfl
  · have hc : ({ c with Name := c.Name } : metricDefinition) = c := rfl
    simp only [defaultName, hname, if_false, hc] at hloop ⊢
    simp only [createRequests.configLoop, hname, if_false, hlen]
    cases hfl : createRequests.fieldLoop c [] c.Fields s with
    | mk e s2 =>
      rw [hfl] at hloop
      simp only at hloop
      subst hloop
      rfl

/-- The outer loop returns an error when some metric has no fields or has an
unnamed field. -/
theorem configLoop_invalid (l : List metricDefinition) (i : Nat) (s : Plc4x)
    (h : ∃ c ∈ l, c.Fields = [] ∨ ∃ f ∈ c.Fields, f.Name = "") :
    ∃ err, (createRequests.configLoop [] i l s).1 = some err := by
  induction l generalizing i s with
  | nil => simp at h
  | cons c cs ih =>
    by_cases hempty : c.Fields = []
    · exact ⟨_, by rw [configLoop_step_empty i c cs s hempty]⟩
    · by_cases hunnamed : ∃ f ∈ c.Fields, f.Name = ""
      · exact ⟨_, configLoop_step_unnamed i c cs s hunnamed⟩
      · have hnamed : ∀ f ∈ c.Fields, f.Name ≠ "" := fun f hf hname => hunnamed ⟨f, hf, hname⟩
        rw [configLoop_step_valid i c cs s hempty hnamed]
        apply ih
        obtain ⟨d, hd, hbad⟩ := h
        rcases List.mem_cons.mp hd with rfl | hd
        · rcases hbad with hbad | hbad
          · exact absurd hbad hempty
          · exact absurd hbad hunnamed
        · exact ⟨d, hd, hbad⟩

/-- An error of the outer loop is the error of `createRequests`. -/
theorem createRequests_of_loop_error (s : Plc4x) (err : GoError)
    (h : (createRequests.configLoop [] 0 s.Configs s).1 = some err) :
    (createRequests s).1 = some err := by
  cases hl : createRequests.configLoop [] 0 s.Configs s with
  | mk e s3 =>
    rw [hl] at h
    simp only at h
    subst h
    simp [createRequests, hl]

/-- On a configuration whose metrics all have fields, all named, and a plugin
without fields, `createRequests` returns no error and leaves the fields of the
metrics, with their mappings, in declaration order. -/
theorem createRequests_valid (s : Plc4x) (hs : s.MetricFields = []) (hne : s.Configs ≠ [])
    (hvalid : ∀ c ∈ s.Configs, c.Fields ≠ [] ∧ ∀ f ∈ c.Fields, f.Name ≠ "") :
    createRequests s =
      (none, { s with MetricFields := s.Configs.flatMap mappedFields,
                      Configs := rewriteConfigs 0 s.Configs s.Configs }) := by
  have hloop := configLoop_valid s.Configs [] 0 s hvalid
  rw [List.append_nil] at hloop
  have hlen : (s.Configs.flatMap mappedFields).length ≠ 0 := by
    cases hc : s.Configs with
    | nil => exact absurd hc hne
    | cons c cs =>
      have hcf : c.Fields ≠ [] := (hvalid c (by rw [hc]; exact List.mem_cons_self _ _)).1
      cases hf : c.Fields with
      | nil => exact absurd hf hcf
      | cons f fs => simp [mappedFields, hf]
  simp only [createRequests, hloop, createRequests.configLoop, hs, List.nil_append]
  rw [if_neg hlen]


/-- The outer loop of `createRequests` never returns the duplicate-field
error. -/
theorem configLoop_never_duplicate (l : List metricDefinition) (i : Nat) (s : Plc4x)
    (args : List String) :
    (createRequests.configLoop [] i l s).1 ≠ some (.Errorf "duplicate field %q" args) := by
  induction l generalizing i s with
  | nil => simp [createRequests.configLoop]
  | cons c cs ih =>
    by_cases hempty : c.Fields = []
    · rw [configLoop_step_empty i c cs s hempty]
      simp
    · by_cases hunnamed : ∃ f ∈ c.Fields, f.Name = ""
      · rw [configLoop_step_unnamed i c cs s hunnamed]
        simp
      · have hnamed : ∀ f ∈ c.Fields, f.Name ≠ "" := fun f hf hname => hunnamed ⟨f, hf, hname⟩
        rw [configLoop_step_valid i c cs s hempty hnamed]
        exact ih _ _

/-- The method `createRequests` never returns the duplicate-field error,
whatever the configuration. -/
theorem createRequests_never_duplicate (s : Plc4x) (args : List String) :
    (createRequests s).1 ≠ some (.Errorf "duplicate field %q" args) := by
  have h := configLoop_never_duplicate s.Configs 0 s args
  cases hl : createRequests.configLoop [] 0 s.Configs s with
  | mk e s2 =>
    rw [hl] at h
    cases e with
    | some err =>
      simp only [createRequests, hl]
      exact h
    | none =>
      simp only [createRequests, hl]
      split <;> simp

/-- The format of the connection string, rendered with its two operands. -/
theorem Sprintf_url (a b : String) : Sprintf "%s://%s" [a, b] = a ++ "://" ++ b := by
  apply String.ext
  simp [Sprintf, Sprintf.render, String.data_append]

/-- The inner loop of `createRequests` leaves `Url` as it is. -/
theorem fieldLoop_url (cfg : metricDefinition) (m : List (String × metricFieldDefinition))
    (fields : List metricFieldDefinition) (s : Plc4x) :
    (createRequests.fieldLoop cfg m fields s).2.Url = s.Url := by
  induction fields generalizing s with
  | nil => rfl
  | cons f rest ih =>
    unfold createRequests.fieldLoop
    split
    · rfl
    · simp only []
      split
      · rfl
      · rw [ih]

/-- The outer loop of `createRequests` leaves `Url` as it is. -/
theorem configLoop_url (m : List (String × metricFieldDefinition)) (l : List metricDefinition)
    (i : Nat) (s : Plc4x) : (createRequests.configLoop m i l s).2.Url = s.Url := by
  induction l generalizing i s with
  | nil => rfl
  | cons c cs ih =>
    unfold createRequests.configLoop
    simp only []
    generalize (if c.Name = "" then { c with Name := "plc4x" } else c) = cfg
    by_cases hlen : cfg.Fields.length = 0
    · simp [hlen]
    · have hf := fieldLoop_url cfg m cfg.Fields s
      simp only [hlen, if_false]
      cases hfl : createRequests.fieldLoop cfg m cfg.Fields s with
      | mk e s2 =>
        rw [hfl] at hf
        cases e with
        | some err => exact hf
        | none =>
          simp only []
          rw [ih]
          exact hf

/-- The method `createRequests` leaves `Url` as it is. -/
theorem createRequests_url (s : Plc4x) : (createRequests s).2.Url = s.Url := by
  have h := configLoop_url [] s.Configs 0 s
  unfold createRequests
  simp only []
  cases hl : createRequests.configLoop [] 0 s.Configs s with
  | mk e s2 =>
    rw [hl] at h
    cases e with
    | some err => exact h
    | none =>
      simp only []
      split <;> exact h

/-- Without parameters, `Init` on a supported schema, a domain name and at
least one metric stores the schema, `://` and the domain name in `Url`. -/
theorem Init_url_without_parameters (s : Plc4x) (driver : Driver)
    (hschema : Init.registerDriver s.Schema = some driver) (hdomain : s.DomainName ≠ "")
    (hconfigs : s.Configs ≠ []) (hparams : s.Parameters = []) :
    (Init s).2.Url = s.Schema ++ "://" ++ s.DomainName := by
  have hs : s.Schema ≠ "" := by
    intro h
    rw [h] at hschema
    have hnone : Init.registerDriver "" = none := by decide
    rw [hnone] at hschema
    exact Option.noConfusion hschema
  have hlen : s.Configs.length ≠ 0 := by simpa using hconfigs
  simp only [Init, hs, hdomain, hlen, hschema, hparams, if_false, List.length_nil,
    gt_iff_lt, Nat.lt_irrefl]
  rw [createRequests_url, Sprintf_url]

/-! ## Lemmas on the calls of Start and Gather -/

/-- The readings among two runs of calls. -/
theorem grouped_append (l1 l2 : List Action) : grouped (l1 ++ l2) = grouped l1 ++ grouped l2 := by
  induction l1 with
  | nil => rfl
  | cons a l ih => cases a <;> simp [grouped, ih]

/-- The metrics among two runs of calls. -/
theorem emitted_append (l1 l2 : List Action) : emitted (l1 ++ l2) = emitted l1 ++ emitted l2 := by
  induction l1 with
  | nil => rfl
  | cons a l ih => cases a <;> simp [emitted, ih]

/-- The read executions among two runs of calls. -/
theorem executions_append (l1 l2 : List Action) :
    executions (l1 ++ l2) = executions l1 + executions l2 := by
  induction l1 with
  | nil => simp [executions]
  | cons a l ih => cases a <;> simp [executions, ih]; omega

/-- The connection attempts among two runs of calls. -/
theorem connects_append (l1 l2 : List Action) :
    connects (l1 ++ l2) = connects l1 + connects l2 := by
  induction l1 with
  | nil => simp [connects]
  | cons a l ih => cases a <;> simp [connects, ih]; omega

/-- The readings among the calls that hand over readings are those readings. -/
theorem grouped_readingActions (rs : List (String × StringMap × Nat × String × GoValue)) :
    grouped (rs.map readingAction) = rs := by
  induction rs with
  | nil => rfl
  | cons r rs ih => simp [grouped, readingAction, ih]

/-- No reading is among calls of `AddMetric`. -/
theorem grouped_addMetrics (ms : List Metric) :
    grouped (ms.map (fun x => Action.AddMetric x)) = [] := by
  induction ms with
  | nil => rfl
  | cons m ms ih => simp [grouped, ih]

/-- The metrics among calls of `AddMetric` are the metrics handed over. -/
theorem emitted_addMetrics (ms : List Metric) :
    emitted (ms.map (fun x => Action.AddMetric x)) = ms := by
  induction ms with
  | nil => rfl
  | cons m ms ih => simp [emitted, ih]

/-- No metric is among the calls that hand readings to the grouper. -/
theorem emitted_readingActions (rs : List (String × StringMap × Nat × String × GoValue)) :
    emitted (rs.map readingAction) = [] := by
  induction rs with
  | nil => rfl
  | cons r rs ih => simp [emitted, readingAction, ih]

/-- With a response at hand, the field loop of `Gather` does not panic, and it
hands the readings of the fields to the grouper, in order. -/
theorem Gather_fieldLoop_response (rrr : PlcReadRequestResult) (response : PlcReadResponse)
    (timestamp : Nat) (fields : List metricFieldDefinition) (grouper : SeriesGrouper)
    (actions : List Action) (h : rrr.GetResponse = some response) :
    Gather.fieldLoop rrr timestamp fields grouper actions =
      (some ((readingsOf response timestamp fields).foldl addReading grouper),
       actions ++ (readingsOf response timestamp fields).map readingAction) := by
  induction fields generalizing grouper actions with
  | nil => simp [Gather.fieldLoop, readingsOf]
  | cons b rest ih =>
    unfold Gather.fieldLoop
    simp only [h]
    by_cases hcode : response.GetResponseCode b.Name = .OK
    · cases hv : convertSimpleValue (response.GetValue b.Name) with
      | none => simp [hcode, hv, ih, readingsOf]
      | some value => simp [hcode, hv, ih, readingsOf, addReading, readingAction]
    · simp [hcode, ih, readingsOf]

/-- The calls `Start` makes: none, the connection attempt alone, or the
connection attempt followed by the building of the request. -/
theorem Start_actions (s : Plc4x) (crc : PlcConnectionConnectResult) :
    (Start s crc).actions = [] ∨ (Start s crc).actions = [.GetConnection s.Url] ∨
    (Start s crc).actions = [.GetConnection s.Url, .ReadRequestBuilder]
      ++ s.MetricFields.map (fun field => .AddTagAddress field.Name field.Address) ++ [.Build] := by
  cases hdm : s.DriverManager with
  | none => simp [Start, hdm]
  | some drivers =>
    cases herr : crc.GetErr with
    | some text => simp [Start, hdm, herr]
    | none =>
      cases hconn : crc.GetConnection with
      | none => simp [Start, hdm, herr, hconn]
      | some connection =>
        cases hread : connection.CanRead with
        | false => simp [Start, hdm, herr, hconn, hread]
        | true =>
          cases hbuild : connection.Build
              (s.MetricFields.map (fun field => (field.Name, field.Address))) with
          | error e => simp [Start, hdm, herr, hconn, hread, hbuild]
          | ok readRequest => simp [Start, hdm, herr, hconn, hread, hbuild]

/-- The method `Start` executes no read and hands nothing to the grouper or the
accumulator. -/
theorem Start_actions_quiet (s : Plc4x) (crc : PlcConnectionConnectResult) :
    executions (Start s crc).actions = 0 ∧ emitted (Start s crc).actions = [] ∧
    grouped (Start s crc).actions = [] := by
  have hmap : ∀ l : List metricFieldDefinition,
      executions (l.map (fun field => Action.AddTagAddress field.Name field.Address)) = 0 ∧
      emitted (l.map (fun field => Action.AddTagAddress field.Name field.Address)) = [] ∧
      grouped (l.map (fun field => Action.AddTagAddress field.Name field.Address)) = [] := by
    intro l
    induction l with
    | nil => exact ⟨rfl, rfl, rfl⟩
    | cons f l ih => simp [executions, emitted, grouped, ih]
  rcases Start_actions s crc with h | h | h <;> rw [h]
  · exact ⟨rfl, rfl, rfl⟩
  · exact ⟨rfl, rfl, rfl⟩
  · simp [executions_append, emitted_append, grouped_append, hmap, executions, emitted, grouped]

/-- With a driver manager, `Start` makes one connection attempt. -/
theorem Start_connects (s : Plc4x) (crc : PlcConnectionConnectResult) (drivers : List Driver)
    (hdm : s.DriverManager = some drivers) : connects (Start s crc).actions = 1 := by
  have hmap : ∀ l : List metricFieldDefinition,
      connects (l.map (fun field => Action.AddTagAddress field.Name field.Address)) = 0 := by
    intro l
    induction l with
    | nil => rfl
    | cons f l ih => simp [connects, ih]
  cases herr : crc.GetErr with
  | some text => simp [Start, hdm, herr, connects]
  | none =>
    cases hconn : crc.GetConnection with
    | none => simp [Start, hdm, herr, hconn, connects]
    | some connection =>
      cases hread : connection.CanRead with
      | false => simp [Start, hdm, herr, hconn, hread, connects]
      | true =>
        cases hbuild : connection.Build
            (s.MetricFields.map (fun field => (field.Name, field.Address))) with
        | error e => simp [Start, hdm, herr, hconn, hread, hbuild, connects, connects_append, hmap]
        | ok readRequest =>
          simp [Start, hdm, herr, hconn, hread, hbuild, connects, connects_append, hmap]

/-! ## createRequests: the claims -/

/-- C1: two fields of the same name are not rejected. A configuration with the
name `a` twice in one metric and a configuration with the name `a` in two
metrics both pass `createRequests` without an error, and both fields are
appended to `MetricFields`. -/
theorem createRequests_accepts_duplicate_field :
    (createRequests exampleDuplicateWithin).1 = none ∧
    (createRequests exampleDuplicateWithin).2.MetricFields.map (fun f => (f.Name, f.Address)) =
      [("a", "x"), ("a", "y")] ∧
    (createRequests exampleDuplicateAcross).1 = none ∧
    (createRequests exampleDuplicateAcross).2.MetricFields.map (fun f => (f.Name, f.Address)) =
      [("a", "x"), ("a", "y")] := by
  decide

/-- C6: for a configuration with at least one metric, at least one field in
each metric, no empty field name and globally unique field names, on a plugin
whose field list is empty, `createRequests` returns no error, and the resulting
`MetricFields` has as many entries as the metrics have fields together and
lists the (name, address) pairs of the fields in declaration order. -/
theorem createRequests_flattens (s : Plc4x) (hs : s.MetricFields = [])
    (hne : s.Configs ≠ []) (hfields : ∀ c ∈ s.Configs, c.Fields ≠ [])
    (hnamed : ∀ c ∈ s.Configs, ∀ f ∈ c.Fields, f.Name ≠ "")
    (_huniq : ((s.Configs.flatMap (fun c => c.Fields)).map (fun f => f.Name)).Nodup) :
    (createRequests s).1 = none ∧
    (createRequests s).2.MetricFields.length = (s.Configs.map (fun c => c.Fields.length)).sum ∧
    (createRequests s).2.MetricFields.map (fun f => (f.Name, f.Address)) =
      (s.Configs.flatMap (fun c => c.Fields)).map (fun f => (f.Name, f.Address)) := by
  have hvalid : ∀ c ∈ s.Configs, c.Fields ≠ [] ∧ ∀ f ∈ c.Fields, f.Name ≠ "" :=
    fun c hc => ⟨hfields c hc, hnamed c hc⟩
  rw [createRequests_valid s hs hne hvalid]
  refine ⟨rfl, ?_, ?_⟩
  · simp [List.length_flatMap, mappedFields, Function.comp_def]
  · simp [List.map_flatMap, mappedFields, mappedField, Function.comp_def]

/-- C6 at `exampleValid`. -/
theorem createRequests_flattens_witness :
    (createRequests exampleValid).1 = none ∧
    (createRequests exampleValid).2.MetricFields.length =
      (exampleValid.Configs.map (fun c => c.Fields.length)).sum ∧
    (createRequests exampleValid).2.MetricFields.map (fun f => (f.Name, f.Address)) =
      (exampleValid.Configs.flatMap (fun c => c.Fields)).map (fun f => (f.Name, f.Address)) :=
  createRequests_flattens exampleValid (by decide) (by decide) (by decide) (by decide)
    (by decide)

/-- C9 as stated fails: `exampleUnnamedThenEmpty` contains a metric without
fields, and the error of `createRequests` is the unnamed-field error of the
metric before it, not a missing-fields error. -/
theorem createRequests_metric_without_fields_counterexample :
    (∃ c ∈ exampleUnnamedThenEmpty.Configs, c.Fields = []) ∧
    (createRequests exampleUnnamedThenEmpty).1 =
      some (.Errorf "unnamed field in metric %q" ["a"]) ∧
    ¬ ∃ args, (createRequests exampleUnnamedThenEmpty).1 =
      some (.Errorf "no fields defined for metric %q" args) := by
  refine ⟨by decide, by decide, ?_⟩
  rintro ⟨args, h⟩
  have h2 : (createRequests exampleUnnamedThenEmpty).1 =
      some (.Errorf "unnamed field in metric %q" ["a"]) := by decide
  rw [h2] at h
  simp at h

/-- C9, amended: a configuration that contains a metric without fields makes
`createRequests` fail, wherever the metric stands; and when every metric before
it has at least one field and only named fields, the error is the
missing-fields error naming that metric, by the default name when its own name
is empty. -/
theorem createRequests_metric_without_fields (s : Plc4x) (pre post : List metricDefinition)
    (cfg : metricDefinition) (hcfgs : s.Configs = pre ++ cfg :: post)
    (hempty : cfg.Fields = []) :
    (∃ err, (createRequests s).1 = some err) ∧
    ((∀ c ∈ pre, c.Fields ≠ [] ∧ ∀ f ∈ c.Fields, f.Name ≠ "") →
      (createRequests s).1 =
        some (.Errorf "no fields defined for metric %q" [defaultName cfg.Name])) := by
  constructor
  · obtain ⟨err, herr⟩ := configLoop_invalid s.Configs 0 s
      ⟨cfg, by rw [hcfgs]; simp, Or.inl hempty⟩
    exact ⟨err, createRequests_of_loop_error s err herr⟩
  · intro hpre
    apply createRequests_of_loop_error
    rw [hcfgs, configLoop_valid pre (cfg :: post) 0 s hpre, configLoop_step_empty _ _ _ _ hempty]

/-- C9, amended, at `exampleValidThenEmpty`. -/
theorem createRequests_metric_without_fields_witness :
    (∃ err, (createRequests exampleValidThenEmpty).1 = some err) ∧
    (createRequests exampleValidThenEmpty).1 =
      some (.Errorf "no fields defined for metric %q" ["plc4x"]) :=
  ⟨(createRequests_metric_without_fields exampleValidThenEmpty
      [{ Name := "m", Fields := [{ Name := "a", Address := "x" }] }] []
      { Name := "", Fields := [] } rfl rfl).1,
   (createRequests_metric_without_fields exampleValidThenEmpty
      [{ Name := "m", Fields := [{ Name := "a", Address := "x" }] }] []
      { Name := "", Fields := [] } rfl rfl).2 (by decide)⟩

/-- C10 as stated fails: `exampleEmptyThenUnnamed` contains a field with an
empty name, and the error of `createRequests` is the missing-fields error of
the metric before it, not an unnamed-field error. -/
theorem createRequests_unnamed_field_counterexample :
    (∃ c ∈ exampleEmptyThenUnnamed.Configs, ∃ f ∈ c.Fields, f.Name = "") ∧
    (createRequests exampleEmptyThenUnnamed).1 =
      some (.Errorf "no fields defined for metric %q" ["a"]) ∧
    ¬ ∃ args, (createRequests exampleEmptyThenUnnamed).1 =
      some (.Errorf "unnamed field in metric %q" args) := by
  refine ⟨by decide, by decide, ?_⟩
  rintro ⟨args, h⟩
  have h2 : (createRequests exampleEmptyThenUnnamed).1 =
      some (.Errorf "no fields defined for metric %q" ["a"]) := by decide
  rw [h2] at h
  simp at h

/-- C10, amended: a configuration in which some field has an empty name makes
`createRequests` fail; and when every metric before the metric of that field
has at least one field and only named fields, the error is the unnamed-field
error naming the metric of that field, by the default name when its own name is
empty. -/
theorem createRequests_unnamed_field (s : Plc4x) (pre post : List metricDefinition)
    (cfg : metricDefinition) (hcfgs : s.Configs = pre ++ cfg :: post)
    (hunnamed : ∃ f ∈ cfg.Fields, f.Name = "") :
    (∃ err, (createRequests s).1 = some err) ∧
    ((∀ c ∈ pre, c.Fields ≠ [] ∧ ∀ f ∈ c.Fields, f.Name ≠ "") →
      (createRequests s).1 =
        some (.Errorf "unnamed field in metric %q" [defaultName cfg.Name])) := by
  constructor
  · obtain ⟨err, herr⟩ := configLoop_invalid s.Configs 0 s
      ⟨cfg, by rw [hcfgs]; simp, Or.inr hunnamed⟩
    exact ⟨err, createRequests_of_loop_error s err herr⟩
  · intro hpre
    apply createRequests_of_loop_error
    rw [hcfgs, configLoop_valid pre (cfg :: post) 0 s hpre]
    exact configLoop_step_unnamed _ _ _ _ hunnamed

/-- C10, amended, at `exampleValidThenUnnamed`. -/
theorem createRequests_unnamed_field_witness :
    (∃ err, (createRequests exampleValidThenUnnamed).1 = some err) ∧
    (createRequests exampleValidThenUnnamed).1 =
      some (.Errorf "unnamed field in metric %q" ["plc4x"]) :=
  ⟨(createRequests_unnamed_field exampleValidThenUnnamed
      [{ Name := "m", Fields := [{ Name := "a", Address := "x" }] }] []
      { Name := "", Fields := [{ Name := "b", Address := "y" }, { Name := "", Address := "z" }] }
      rfl (by decide)).1,
   (createRequests_unnamed_field exampleValidThenUnnamed
      [{ Name := "m", Fields := [{ Name := "a", Address := "x" }] }] []
      { Name := "", Fields := [{ Name := "b", Address := "y" }, { Name := "", Address := "z" }] }
      rfl (by decide)).2 (by decide)⟩

/-! ## Init, Start, Gather, convertSimpleValue: the claims -/

/-- C2: the 16-bit signed and the 32-bit unsigned kinds are not converted by
their own extractors. A value of the one kind 16-bit signed holding -5 comes
back as the uint32 that `GetUint32` answers, and a value of the one kind 32-bit
unsigned holding 70000 comes back as the int16 that `GetInt16` answers. -/
theorem convertSimpleValue_crosses_int16_uint32 :
    exampleInt16.hasSingleKind .int16 = true ∧
    exampleInt16.get .int16 = .int16 (-5) ∧
    convertSimpleValue exampleInt16 = some (.uint32 0) ∧
    exampleUint32.hasSingleKind .uint32 = true ∧
    exampleUint32.get .uint32 = .uint32 70000 ∧
    convertSimpleValue exampleUint32 = some (.int16 0) := by
  decide

/-- C7: with parameters configured, the connection string is not the list of
`key=value` pairs. For the parameters rack=0 and slot=1, `Init` succeeds and
stores a query made of the unfilled format, the key and the value as three
separate elements for each pair. -/
theorem Init_url_with_parameters :
    (Init exampleParameters).1 = none ∧
    (Init exampleParameters).2.Url =
      "s7://host?%!s(MISSING)=%!s(MISSING)&rack&0&%!s(MISSING)=%!s(MISSING)&slot&1" ∧
    (Init exampleParameters).2.Url ≠ "s7://host?rack=0&slot=1" := by
  decide

/-- C8: when the connection is established and can read but `Build` fails,
`Start` panics: it asks the connection result, whose error is nil, for the text
of its error. No read request is stored. -/
theorem Start_build_failure_panics :
    (Init exampleValid).1 = none ∧
    (Start (Init exampleValid).2 exampleBuildFails).outcome = .panicked ∧
    (Start (Init exampleValid).2 exampleBuildFails).plugin.ReadRequest = none := by
  decide

/-- C3 as stated fails: in a cycle whose read ends with a transport error,
with a reconnect that succeeds and a second read that would deliver values,
`Gather` executes the read once, not twice, and emits no metric, although a
cycle on the rebuilt request with that second read does emit metrics. -/
theorem Gather_read_error_counterexample :
    (Gather exampleReady 1000 exampleExecErrorThenOk exampleConnected).outcome = .returned none ∧
    executions (Gather exampleReady 1000 exampleExecErrorThenOk exampleConnected).actions = 1 ∧
    emitted (Gather exampleReady 1000 exampleExecErrorThenOk exampleConnected).actions = [] ∧
    emitted (Gather (Gather exampleReady 1000 exampleExecErrorThenOk exampleConnected).plugin
      1000 (fun _ => exampleExecErrorThenOk 1) exampleConnected).actions ≠ [] := by
  decide

/-- C3, amended: when the read of a cycle ends with a transport error and the
deadline has not fired, `Gather` closes the driver manager, runs `Start` once
and ends as `Start` ends, leaving the plugin as `Start` leaves it; the read is
executed once in that call, one connection attempt is made, and nothing is
handed to the grouper or the accumulator. When the connection is established,
can read and builds the request, `Gather` returns no error and the rebuilt
request is stored. -/
theorem Gather_read_error (s : Plc4x) (now : Nat) (exec : Nat → SelectCase)
    (crc : PlcConnectionConnectResult) (drivers : List Driver) (request : PlcReadRequest)
    (rrr : PlcReadRequestResult) (text : String)
    (hdm : s.DriverManager = some drivers) (hreq : s.ReadRequest = some request)
    (hexec : exec 0 = .received rrr) (herr : rrr.GetErr = some text) :
    (Gather s now exec crc).outcome = (Start s crc).outcome ∧
    (Gather s now exec crc).plugin = (Start s crc).plugin ∧
    (Gather s now exec crc).actions =
      .ExecuteWithContext request :: .Close :: (Start s crc).actions ∧
    executions (Gather s now exec crc).actions = 1 ∧
    connects (Gather s now exec crc).actions = 1 ∧
    grouped (Gather s now exec crc).actions = [] ∧
    emitted (Gather s now exec crc).actions = [] ∧
    (∀ connection readRequest, crc.GetErr = none → crc.GetConnection = some connection →
      connection.CanRead = true →
      connection.Build (s.MetricFields.map (fun field => (field.Name, field.Address))) =
        .ok readRequest →
      (Gather s now exec crc).outcome = .returned none ∧
      (Gather s now exec crc).plugin = { s with ReadRequest := some readRequest }) := by
  have hg : Gather s now exec crc =
      { Start s crc with actions := .ExecuteWithContext request :: .Close :: (Start s crc).actions } := by
    simp [Gather, hreq, hexec, herr, Stop, hdm]
  obtain ⟨hexe, hemit, hgroup⟩ := Start_actions_quiet s crc
  have hconn := Start_connects s crc drivers hdm
  rw [hg]
  refine ⟨rfl, rfl, rfl, ?_, ?_, ?_, ?_, ?_⟩
  · simp [executions, hexe]
  · simp [connects, hconn]
  · simp [grouped, hgroup]
  · simp [emitted, hemit]
  · intro connection readRequest hnil hconnection hread hbuild
    simp [Start, hdm, hnil, hconnection, hread, hbuild]

/-- C3, amended, at `exampleReady` with a first read that fails. -/
theorem Gather_read_error_witness :
    (Gather exampleReady 1000 exampleExecErrorThenOk exampleConnected).outcome =
      (Start exampleReady exampleConnected).outcome ∧
    (Gather exampleReady 1000 exampleExecErrorThenOk exampleConnected).plugin =
      (Start exampleReady exampleConnected).plugin ∧
    (Gather exampleReady 1000 exampleExecErrorThenOk exampleConnected).actions =
      .ExecuteWithContext { tagAddresses := [("a", "x"), ("b", "y"), ("c", "z")] } :: .Close ::
        (Start exampleReady exampleConnected).actions ∧
    executions (Gather exampleReady 1000 exampleExecErrorThenOk exampleConnected).actions = 1 ∧
    connects (Gather exampleReady 1000 exampleExecErrorThenOk exampleConnected).actions = 1 ∧
    grouped (Gather exampleReady 1000 exampleExecErrorThenOk exampleConnected).actions = [] ∧
    emitted (Gather exampleReady 1000 exampleExecErrorThenOk exampleConnected).actions = [] ∧
    (Gather exampleReady 1000 exampleExecErrorThenOk exampleConnected).outcome = .returned none ∧
    (Gather exampleReady 1000 exampleExecErrorThenOk exampleConnected).plugin =
      { exampleReady with
        ReadRequest := some { tagAddresses := [("a", "x"), ("b", "y"), ("c", "z")] } } := by
  have h := Gather_read_error exampleReady 1000 exampleExecErrorThenOk exampleConnected [.S7]
    { tagAddresses := [("a", "x"), ("b", "y"), ("c", "z")] }
    { GetErr := some "connection reset", GetResponse := none } "connection reset"
    (by decide) (by decide) rfl rfl
  exact ⟨h.1, h.2.1, h.2.2.1, h.2.2.2.1, h.2.2.2.2.1, h.2.2.2.2.2.1, h.2.2.2.2.2.2.1,
    h.2.2.2.2.2.2.2 { CanRead := true, Build := fun pairs => .ok { tagAddresses := pairs } }
      { tagAddresses := [("a", "x"), ("b", "y"), ("c", "z")] } rfl rfl rfl rfl⟩

/-- C4: for a read that delivers a response without an error, `Gather` returns
no error and hands to the grouper exactly the readings of the configured
fields whose response code is OK and whose value `convertSimpleValue` turns
into a value, in the order of `MetricFields`, each with the measurement, tags
and field name of the mapping of its field, the converted value and the
timestamp taken at the start of the cycle; the other fields are passed over. -/
theorem Gather_readings (s : Plc4x) (now : Nat) (exec : Nat → SelectCase)
    (crc : PlcConnectionConnectResult) (request : PlcReadRequest)
    (rrr : PlcReadRequestResult) (response : PlcReadResponse)
    (hreq : s.ReadRequest = some request) (hexec : exec 0 = .received rrr)
    (herr : rrr.GetErr = none) (hresp : rrr.GetResponse = some response) :
    (Gather s now exec crc).outcome = .returned none ∧
    grouped (Gather s now exec crc).actions =
      s.MetricFields.filterMap (fun b =>
        if response.GetResponseCode b.Name = .OK then
          (convertSimpleValue (response.GetValue b.Name)).map
            (fun value => (b.Mapping.measurement, b.Mapping.tags, now, b.Mapping.field, value))
        else none) := by
  have hloop := Gather_fieldLoop_response rrr response now s.MetricFields NewSeriesGrouper
    [.ExecuteWithContext request] hresp
  have hg : Gather s now exec crc =
      { outcome := .returned none, plugin := s,
        actions := [.ExecuteWithContext request]
          ++ (readingsOf response now s.MetricFields).map readingAction
          ++ (((readingsOf response now s.MetricFields).foldl addReading
                NewSeriesGrouper).Metrics.map (fun x => .AddMetric x)) } := by
    simp [Gather, hreq, hexec, herr, hloop]
  rw [hg]
  refine ⟨rfl, ?_⟩
  show grouped ([Action.ExecuteWithContext request]
      ++ (readingsOf response now s.MetricFields).map readingAction
      ++ (((readingsOf response now s.MetricFields).foldl addReading
            NewSeriesGrouper).Metrics.map (fun x => Action.AddMetric x))) = _
  rw [grouped_append, grouped_append, grouped_readingActions, grouped_addMetrics]
  simp [grouped, readingsOf]

/-- C4 at `exampleReady` with a read that delivers `exampleResponse`. -/
theorem Gather_readings_witness :
    (Gather exampleReady 1000 exampleExecOk exampleConnected).outcome = .returned none ∧
    grouped (Gather exampleReady 1000 exampleExecOk exampleConnected).actions =
      exampleReady.MetricFields.filterMap (fun b =>
        if exampleResponse.GetResponseCode b.Name = .OK then
          (convertSimpleValue (exampleResponse.GetValue b.Name)).map
            (fun value => (b.Mapping.measurement, b.Mapping.tags, 1000, b.Mapping.field, value))
        else none) :=
  Gather_readings exampleReady 1000 exampleExecOk exampleConnected
    { tagAddresses := [("a", "x"), ("b", "y"), ("c", "z")] }
    { GetErr := none, GetResponse := some exampleResponse } exampleResponse
    (by decide) rfl rfl rfl

/-- C5: when the deadline of the cycle fires before the read delivers,
`Gather` returns the error "read fields timeout" (it does not panic), leaves
the plugin as it was, and its only call is the one read execution: nothing is
handed to the grouper or the accumulator, the driver manager is not closed and
no connection is attempted. -/
theorem Gather_timeout (s : Plc4x) (now : Nat) (exec : Nat → SelectCase)
    (crc : PlcConnectionConnectResult) (request : PlcReadRequest)
    (hreq : s.ReadRequest = some request) (hexec : exec 0 = .ctxDone) :
    (Gather s now exec crc).outcome = .returned (some (.Errorf "read fields timeout" [])) ∧
    (Gather s now exec crc).plugin = s ∧
    (Gather s now exec crc).actions = [.ExecuteWithContext request] ∧
    emitted (Gather s now exec crc).actions = [] ∧
    grouped (Gather s now exec crc).actions = [] ∧
    connects (Gather s now exec crc).actions = 0 ∧
    executions (Gather s now exec crc).actions = 1 := by
  have hg : Gather s now exec crc =
      { outcome := .returned (some (.Errorf "read fields timeout" [])), plugin := s,
        actions := [.ExecuteWithContext request] } := by
    simp [Gather, hreq, hexec]
  rw [hg]
  exact ⟨rfl, rfl, rfl, rfl, rfl, rfl, rfl⟩

/-- C5 at `exampleReady` with a deadline that fires first. -/
theorem Gather_timeout_witness :
    (Gather exampleReady 1000 exampleExecTimeout exampleConnected).outcome =
      .returned (some (.Errorf "read fields timeout" [])) ∧
    (Gather exampleReady 1000 exampleExecTimeout exampleConnected).plugin = exampleReady ∧
    (Gather exampleReady 1000 exampleExecTimeout exampleConnected).actions =
      [.ExecuteWithContext { tagAddresses := [("a", "x"), ("b", "y"), ("c", "z")] }] ∧
    emitted (Gather exampleReady 1000 exampleExecTimeout exampleConnected).actions = [] ∧
    grouped (Gather exampleReady 1000 exampleExecTimeout exampleConnected).actions = [] ∧
    connects (Gather exampleReady 1000 exampleExecTimeout exampleConnected).actions = 0 ∧
    executions (Gather exampleReady 1000 exampleExecTimeout exampleConnected).actions = 1 :=
  Gather_timeout exampleReady 1000 exampleExecTimeout exampleConnected
    { tagAddresses := [("a", "x"), ("b", "y"), ("c", "z")] } (by decide) rfl

/-! ## Further lemmas -/

/-- The result of `convertSimpleValue` is what the `return` statement it leaves
through returns. -/
theorem convertSimpleValue_returnLine (value : PlcValue) :
    convertSimpleValue value =
      convertSimpleValue.returnedAt value (convertSimpleValue.returnLine value) := by
  unfold convertSimpleValue convertSimpleValue.returnLine
  by_cases h1 : value.IsNull = true
  · simp only [h1, if_true]; rfl
  simp only [h1, if_false]
  by_cases h2 : value.IsBool = true
  · simp only [h2, if_true]; rfl
  simp only [h2, if_false]
  by_cases h3 : value.IsByte = true
  · simp only [h3, if_true]; rfl
  simp only [h3, if_false]
  by_cases h4 : value.IsUint8 = true
  · simp only [h4, if_true]; rfl
  simp only [h4, if_false]
  by_cases h5 : value.IsInt16 = true
  · simp only [h5, if_true]; rfl
  simp only [h5, if_false]
  by_cases h6 : value.IsUint32 = true
  · simp only [h6, if_true]; rfl
  simp only [h6, if_false]
  by_cases h7 : value.IsUint64 = true
  · simp only [h7, if_true]; rfl
  simp only [h7, if_false]
  by_cases h8 : value.IsInt8 = true
  · simp only [h8, if_true]; rfl
  simp only [h8, if_false]
  by_cases h9 : value.IsInt32 = true
  · simp only [h9, if_true]; rfl
  simp only [h9, if_false]
  by_cases h10 : value.IsInt64 = true
  · simp only [h10, if_true]; rfl
  simp only [h10, if_false]
  by_cases h11 : value.IsFloat32 = true
  · simp only [h11, if_true]; rfl
  simp only [h11, if_false]
  by_cases h12 : value.IsFloat64 = true
  · simp only [h12, if_true]; rfl
  simp only [h12, if_false]
  by_cases h13 : value.IsString = true
  · simp only [h13, if_true]; rfl
  simp only [h13, if_false]
  by_cases h14 : value.IsTime = true
  · simp only [h14, if_true]; rfl
  simp only [h14, if_false]
  by_cases h15 : value.IsDuration = true
  · simp only [h15, if_true]; rfl
  simp only [h15, if_false]
  by_cases h16 : value.IsDate = true
  · simp only [h16, if_true]; rfl
  simp only [h16, if_false]
  by_cases h17 : value.IsDateTime = true
  · simp only [h17, if_true]; rfl
  simp only [h17, if_false]
  rfl

/-- A value of exactly one kind is not null, and a kind predicate holds of it
exactly for that kind. -/
theorem hasSingleKind_spec (value : PlcValue) (k : Kind) (h : value.hasSingleKind k = true) :
    value.IsNull = false ∧ ∀ j, value.is j = decide (j = k) := by
  simp only [PlcValue.hasSingleKind, Bool.and_eq_true, Bool.not_eq_true', List.all_eq_true,
    beq_iff_eq] at h
  refine ⟨h.1, fun j => h.2 j ?_⟩
  cases j <;> simp [Kind.all]

/-- The second test of `IsInt16` is never the one a call returns through. -/
theorem returnLine_ne_226 (value : PlcValue) : convertSimpleValue.returnLine value ≠ 226 := by
  unfold convertSimpleValue.returnLine
  by_cases h1 : value.IsNull = true
  · simp only [h1, if_true]; decide
  simp only [h1, if_false]
  by_cases h2 : value.IsBool = true
  · simp only [h2, if_true]; decide
  simp only [h2, if_false]
  by_cases h3 : value.IsByte = true
  · simp only [h3, if_true]; decide
  simp only [h3, if_false]
  by_cases h4 : value.IsUint8 = true
  · simp only [h4, if_true]; decide
  simp only [h4, if_false]
  by_cases h5 : value.IsInt16 = true
  · simp only [h5, if_true]; decide
  simp only [h5, if_false]
  by_cases h6 : value.IsUint32 = true
  · simp only [h6, if_true]; decide
  simp only [h6, if_false]
  by_cases h7 : value.IsUint64 = true
  · simp only [h7, if_true]; decide
  simp only [h7, if_false]
  by_cases h8 : value.IsInt8 = true
  · simp only [h8, if_true]; decide
  simp only [h8, if_false]
  by_cases h9 : value.IsInt32 = true
  · simp only [h9, if_true]; decide
  simp only [h9, if_false]
  by_cases h10 : value.IsInt64 = true
  · simp only [h10, if_true]; decide
  simp only [h10, if_false]
  by_cases h11 : value.IsFloat32 = true
  · simp only [h11, if_true]; decide
  simp only [h11, if_false]
  by_cases h12 : value.IsFloat64 = true
  · simp only [h12, if_true]; decide
  simp only [h12, if_false]
  by_cases h13 : value.IsString = true
  · simp only [h13, if_true]; decide
  simp only [h13, if_false]
  by_cases h14 : value.IsTime = true
  · simp only [h14, if_true]; decide
  simp only [h14, if_false]
  by_cases h15 : value.IsDuration = true
  · simp only [h15, if_true]; decide
  simp only [h15, if_false]
  by_cases h16 : value.IsDate = true
  · simp only [h16, if_true]; decide
  simp only [h16, if_false]
  by_cases h17 : value.IsDateTime = true
  · simp only [h17, if_true]; decide
  simp only [h17, if_false]
  decide

/-- A value of which `IsInt16` holds returns through the first test of
`IsInt16` or through a test before it. -/
theorem returnLine_of_IsInt16 (value : PlcValue) (h : value.IsInt16 = true) :
    convertSimpleValue.returnLine value ∈ [200, 204, 208, 211, 214] := by
  unfold convertSimpleValue.returnLine
  by_cases h1 : value.IsNull = true
  · simp only [h1, if_true]; decide
  simp only [h1, if_false]
  by_cases h2 : value.IsBool = true
  · simp only [h2, if_true]; decide
  simp only [h2, if_false]
  by_cases h3 : value.IsByte = true
  · simp only [h3, if_true]; decide
  simp only [h3, if_false]
  by_cases h4 : value.IsUint8 = true
  · simp only [h4, if_true]; decide
  simp only [h4, if_false, h, if_true]
  decide

/-- A result of type int16 comes from the test of `IsUint32`, on a value of
which `IsInt16` does not hold. -/
theorem convertSimpleValue_int16_source (value : PlcValue) (x : Int)
    (h : convertSimpleValue value = some (.int16 x)) :
    value.IsInt16 = false ∧ value.IsUint32 = true ∧ x = value.GetInt16 := by
  unfold convertSimpleValue at h
  by_cases h1 : value.IsNull = true
  · simp only [h1, if_true] at h; simp at h
  simp only [h1, if_false] at h
  by_cases h2 : value.IsBool = true
  · simp only [h2, if_true] at h; simp at h
  simp only [h2, if_false] at h
  by_cases h3 : value.IsByte = true
  · simp only [h3, if_true] at h; simp at h
  simp only [h3, if_false] at h
  by_cases h4 : value.IsUint8 = true
  · simp only [h4, if_true] at h; simp at h
  simp only [h4, if_false] at h
  by_cases h5 : value.IsInt16 = true
  · simp only [h5, if_true] at h; simp at h
  simp only [h5, if_false] at h
  by_cases h6 : value.IsUint32 = true
  · simp only [h6, if_true] at h; exact ⟨by simpa using h5, h6, by simpa using h.symm⟩
  simp only [h6, if_false] at h
  by_cases h7 : value.IsUint64 = true
  · simp only [h7, if_true] at h; simp at h
  simp only [h7, if_false] at h
  by_cases h8 : value.IsInt8 = true
  · simp only [h8, if_true] at h; simp at h
  simp only [h8, if_false] at h
  by_cases h9 : value.IsInt32 = true
  · simp only [h9, if_true] at h; simp at h
  simp only [h9, if_false] at h
  by_cases h10 : value.IsInt64 = true
  · simp only [h10, if_true] at h; simp at h
  simp only [h10, if_false] at h
  by_cases h11 : value.IsFloat32 = true
  · simp only [h11, if_true] at h; simp at h
  simp only [h11, if_false] at h
  by_cases h12 : value.IsFloat64 = true
  · simp only [h12, if_true] at h; simp at h
  simp only [h12, if_false] at h
  by_cases h13 : value.IsString = true
  · simp only [h13, if_true] at h; simp at h
  simp only [h13, if_false] at h
  by_cases h14 : value.IsTime = true
  · simp only [h14, if_true] at h; simp at h
  simp only [h14, if_false] at h
  by_cases h15 : value.IsDuration = true
  · simp only [h15, if_true] at h; simp at h
  simp only [h15, if_false] at h
  by_cases h16 : value.IsDate = true
  · simp only [h16, if_true] at h; simp at h
  simp only [h16, if_false] at h
  by_cases h17 : value.IsDateTime = true
  · simp only [h17, if_true] at h; simp at h
  simp only [h17, if_false] at h
  simp at h

/-- A read that delivers a response without an error: `Gather` returns no
error, hands the readings of the fields to the grouper and the metrics of the
grouper to the accumulator. -/
theorem Gather_of_response (s : Plc4x) (now : Nat) (exec : Nat → SelectCase)
    (crc : PlcConnectionConnectResult) (request : PlcReadRequest)
    (rrr : PlcReadRequestResult) (response : PlcReadResponse)
    (hreq : s.ReadRequest = some request) (hexec : exec 0 = .received rrr)
    (herr : rrr.GetErr = none) (hresp : rrr.GetResponse = some response) :
    Gather s now exec crc =
      { outcome := .returned none, plugin := s,
        actions := [.ExecuteWithContext request]
          ++ (readingsOf response now s.MetricFields).map readingAction
          ++ (((readingsOf response now s.MetricFields).foldl addReading
                NewSeriesGrouper).Metrics.map (fun x => .AddMetric x)) } := by
  have hloop := Gather_fieldLoop_response rrr response now s.MetricFields NewSeriesGrouper
    [.ExecuteWithContext request] hresp
  simp [Gather, hreq, hexec, herr, hloop]

/-- The readings handed to the grouper by a read that delivers a response. -/
theorem Gather_grouped (s : Plc4x) (now : Nat) (exec : Nat → SelectCase)
    (crc : PlcConnectionConnectResult) (request : PlcReadRequest)
    (rrr : PlcReadRequestResult) (response : PlcReadResponse)
    (hreq : s.ReadRequest = some request) (hexec : exec 0 = .received rrr)
    (herr : rrr.GetErr = none) (hresp : rrr.GetResponse = some response) :
    grouped (Gather s now exec crc).actions = readingsOf response now s.MetricFields := by
  rw [Gather_of_response s now exec crc request rrr response hreq hexec herr hresp]
  show grouped ([Action.ExecuteWithContext request]
      ++ (readingsOf response now s.MetricFields).map readingAction
      ++ (((readingsOf response now s.MetricFields).foldl addReading
            NewSeriesGrouper).Metrics.map (fun x => Action.AddMetric x))) = _
  rw [grouped_append, grouped_append, grouped_readingActions, grouped_addMetrics]
  simp [grouped]

/-- The metrics handed to the accumulator by a read that delivers a
response. -/
theorem Gather_emitted (s : Plc4x) (now : Nat) (exec : Nat → SelectCase)
    (crc : PlcConnectionConnectResult) (request : PlcReadRequest)
    (rrr : PlcReadRequestResult) (response : PlcReadResponse)
    (hreq : s.ReadRequest = some request) (hexec : exec 0 = .received rrr)
    (herr : rrr.GetErr = none) (hresp : rrr.GetResponse = some response) :
    emitted (Gather s now exec crc).actions =
      ((readingsOf response now s.MetricFields).foldl addReading NewSeriesGrouper).Metrics := by
  rw [Gather_of_response s now exec crc request rrr response hreq hexec herr hresp]
  show emitted ([Action.ExecuteWithContext request]
      ++ (readingsOf response now s.MetricFields).map readingAction
      ++ (((readingsOf response now s.MetricFields).foldl addReading
            NewSeriesGrouper).Metrics.map (fun x => Action.AddMetric x))) = _
  rw [emitted_append, emitted_append, emitted_readingActions, emitted_addMetrics]
  simp [emitted]

/-- The null value converts to no value. -/
theorem convertSimpleValue_null (value : PlcValue) (h : value.IsNull = true) :
    convertSimpleValue value = none := by
  simp [convertSimpleValue, h]

/-- A value of which no kind predicate holds converts to no value. -/
theorem convertSimpleValue_kindless (value : PlcValue) (h : ∀ k, value.is k = false) :
    convertSimpleValue value = none := by
  have hbool := h .bool
  have hbyte := h .byte
  have huint8 := h .uint8
  have hint8 := h .int8
  have hint16 := h .int16
  have hint32 := h .int32
  have hint64 := h .int64
  have huint32 := h .uint32
  have huint64 := h .uint64
  have hfloat32 := h .float32
  have hfloat64 := h .float64
  have hstring := h .string
  have htime := h .time
  have hduration := h .duration
  have hdate := h .date
  have hdateTime := h .dateTime
  simp only [PlcValue.is] at hbool hbyte huint8 hint8 hint16 hint32 hint64 huint32 huint64
  simp only [PlcValue.is] at hfloat32 hfloat64 hstring htime hduration hdate hdateTime
  simp [convertSimpleValue, hbool, hbyte, huint8, hint8, hint16, hint32, hint64, huint32,
    huint64, hfloat32, hfloat64, hstring, htime, hduration, hdate, hdateTime]

/-- A value without a kind converts to no value. -/
theorem convertSimpleValue_hasNoKind (value : PlcValue) (h : value.hasNoKind = true) :
    convertSimpleValue value = none := by
  simp only [PlcValue.hasNoKind, Bool.or_eq_true, List.all_eq_true, Bool.not_eq_true'] at h
  rcases h with h | h
  · exact convertSimpleValue_null value h
  · apply convertSimpleValue_kindless
    intro k
    apply h
    cases k <;> simp [Kind.all]

/-- Leaving out elements that a partial map sends to nothing leaves the
result of the map as it is. -/
theorem filterMap_filter_of_none {α β : Type} (f : α → Option β) (p : α → Bool) (l : List α)
    (h : ∀ x, p x = false → f x = none) : (l.filter p).filterMap f = l.filterMap f := by
  induction l with
  | nil => rfl
  | cons x rest ih =>
    cases hp : p x with
    | false => rw [List.filter_cons_of_neg (by simp [hp]), List.filterMap_cons_none (h x hp), ih]
    | true =>
      rw [List.filter_cons_of_pos hp]
      cases hf : f x with
      | none => rw [List.filterMap_cons_none hf, List.filterMap_cons_none hf, ih]
      | some y => rw [List.filterMap_cons_some hf, List.filterMap_cons_some hf, ih]

/-- Fields whose value has no kind yield no reading: leaving them out of the
list leaves the readings as they are. -/
theorem readingsOf_filter (response : PlcReadResponse) (timestamp : Nat)
    (fields : List metricFieldDefinition) :
    readingsOf response timestamp
        (fields.filter (fun b => !(response.GetValue b.Name).hasNoKind)) =
      readingsOf response timestamp fields := by
  unfold readingsOf
  apply filterMap_filter_of_none
  intro b hb
  have hno : (response.GetValue b.Name).hasNoKind = true := by simpa using hb
  simp [convertSimpleValue_hasNoKind _ hno]

/-- The `switch` of `Init` takes its `default` case exactly on the schemas it
has no case for. -/
theorem registerDriver_none_iff (schema : String) :
    Init.registerDriver schema = none ↔ schema ∉ Init.supportedSchemas := by
  unfold Init.registerDriver Init.supportedSchemas
  split_ifs <;> simp_all

/-- Writing a run of metric definitions back in place applies the default name
to each of them and leaves the definitions around them. -/
theorem rewriteConfigs_eq (cs before after : List metricDefinition) :
    rewriteConfigs before.length cs (before ++ cs ++ after) =
      before ++ cs.map (fun c => { c with Name := defaultName c.Name }) ++ after := by
  induction cs generalizing before with
  | nil => simp [rewriteConfigs]
  | cons c rest ih =>
    have hset : (before ++ c :: rest ++ after).set before.length
        { c with Name := defaultName c.Name } =
        (before ++ [{ c with Name := defaultName c.Name }]) ++ rest ++ after := by
      simp [List.set_append_right]
    have hlen : before.length + 1 = (before ++ [{ c with Name := defaultName c.Name }]).length := by
      simp
    rw [rewriteConfigs, hset, hlen, ih]
    simp

/-- Writing all metric definitions back applies the default name to each. -/
theorem rewriteConfigs_all (cs : List metricDefinition) :
    rewriteConfigs 0 cs cs = cs.map (fun c => { c with Name := defaultName c.Name }) := by
  have h := rewriteConfigs_eq cs [] []
  simpa using h

/-- The outer loop, when it returns no error, has passed over metrics that all
have fields, all named. -/
theorem configLoop_none_valid (l : List metricDefinition) (i : Nat) (s : Plc4x)
    (h : (createRequests.configLoop [] i l s).1 = none) :
    ∀ c ∈ l, c.Fields ≠ [] ∧ ∀ f ∈ c.Fields, f.Name ≠ "" := by
  intro c hc
  by_contra hbad
  have hinvalid : ∃ d ∈ l, d.Fields = [] ∨ ∃ f ∈ d.Fields, f.Name = "" := by
    refine ⟨c, hc, ?_⟩
    by_cases hempty : c.Fields = []
    · exact Or.inl hempty
    · right
      by_contra hno
      exact hbad ⟨hempty, fun f hf hname => hno ⟨f, hf, hname⟩⟩
  obtain ⟨err, herr⟩ := configLoop_invalid l i s hinvalid
  rw [herr] at h
  exact Option.noConfusion h

/-- The error of the outer loop, if any. -/
theorem createRequests_loop_none (s : Plc4x) (h : (createRequests s).1 = none) :
    (createRequests.configLoop [] 0 s.Configs s).1 = none := by
  cases hl : createRequests.configLoop [] 0 s.Configs s with
  | mk e s2 =>
    cases e with
    | none => rfl
    | some err =>
      have := createRequests_of_loop_error s err (by rw [hl])
      rw [this] at h
      exact Option.noConfusion h

/-- The plugin a successful `createRequests` leaves. -/
theorem createRequests_success (s : Plc4x) (h : (createRequests s).1 = none) :
    (createRequests s).2 =
      { s with MetricFields := s.MetricFields ++ s.Configs.flatMap mappedFields,
               Configs := s.Configs.map (fun c => { c with Name := defaultName c.Name }) } := by
  have hvalid := configLoop_none_valid s.Configs 0 s (createRequests_loop_none s h)
  have hloop := configLoop_valid s.Configs [] 0 s hvalid
  rw [List.append_nil] at hloop
  simp only [createRequests, hloop, createRequests.configLoop, rewriteConfigs_all] at h ⊢
  split
  · next hzero => simp [hzero] at h
  · rfl

/-- The error of the outer loop depends on the metric definitions only, and
the fields it leaves, when it returns no error, on them and on the fields it
started with. -/
theorem configLoop_congr (l : List metricDefinition) (i j : Nat) (s t : Plc4x)
    (h : s.MetricFields = t.MetricFields) :
    (createRequests.configLoop [] i l s).1 = (createRequests.configLoop [] j l t).1 ∧
    ((createRequests.configLoop [] i l s).1 = none →
      (createRequests.configLoop [] i l s).2.MetricFields =
        (createRequests.configLoop [] j l t).2.MetricFields) := by
  by_cases hvalid : ∀ c ∈ l, c.Fields ≠ [] ∧ ∀ f ∈ c.Fields, f.Name ≠ ""
  · have hs := configLoop_valid l [] i s hvalid
    have ht := configLoop_valid l [] j t hvalid
    rw [List.append_nil] at hs ht
    rw [hs, ht]
    simp [createRequests.configLoop, h]
  · have hfirst : ∃ before c after, l = before ++ c :: after ∧
        (∀ d ∈ before, d.Fields ≠ [] ∧ ∀ f ∈ d.Fields, f.Name ≠ "") ∧
        ¬ (c.Fields ≠ [] ∧ ∀ f ∈ c.Fields, f.Name ≠ "") := by
      clear h
      induction l with
      | nil => simp at hvalid
      | cons c rest ih =>
        by_cases hc : c.Fields ≠ [] ∧ ∀ f ∈ c.Fields, f.Name ≠ ""
        · have hrest : ¬ ∀ d ∈ rest, d.Fields ≠ [] ∧ ∀ f ∈ d.Fields, f.Name ≠ "" := by
            intro hall
            apply hvalid
            intro d hd
            rcases List.mem_cons.mp hd with rfl | hd
            · exact hc
            · exact hall d hd
          obtain ⟨before, d, after, hl, hbefore, hd⟩ := ih hrest
          refine ⟨c :: before, d, after, by rw [hl]; rfl, ?_, hd⟩
          intro e he
          rcases List.mem_cons.mp he with rfl | he
          · exact hc
          · exact hbefore e he
        · exact ⟨[], c, rest, rfl, by simp, hc⟩
    obtain ⟨before, c, after, hl, hbefore, hc⟩ := hfirst
    rw [hl, configLoop_valid before (c :: after) i s hbefore,
      configLoop_valid before (c :: after) j t hbefore]
    by_cases hempty : c.Fields = []
    · rw [configLoop_step_empty _ _ _ _ hempty, configLoop_step_empty _ _ _ _ hempty]
      simp
    · have hunnamed : ∃ f ∈ c.Fields, f.Name = "" := by
        by_contra hno
        exact hc ⟨hempty, fun f hf hname => hno ⟨f, hf, hname⟩⟩
      rw [configLoop_step_unnamed _ _ _ _ hunnamed, configLoop_step_unnamed _ _ _ _ hunnamed]
      simp

/-- The error of `createRequests` depends on the metric definitions and on the
fields the plugin holds, on nothing else of the plugin. -/
theorem createRequests_congr (s t : Plc4x) (hc : s.Configs = t.Configs)
    (hf : s.MetricFields = t.MetricFields) : (createRequests s).1 = (createRequests t).1 := by
  obtain ⟨h1, h2⟩ := configLoop_congr s.Configs 0 0 s t hf
  rw [hc] at h1 h2
  cases hs : createRequests.configLoop [] 0 s.Configs s with
  | mk e s2 =>
    cases ht : createRequests.configLoop [] 0 t.Configs t with
    | mk e2 t2 =>
      rw [hc] at hs
      rw [hs, ht] at h1 h2
      simp only at h1 h2
      subst h1
      cases e with
      | some err => simp [createRequests, hc, hs, ht]
      | none =>
        have hm := h2 rfl
        simp only [createRequests, hc, hs, ht, hm]
        split <;> rfl

/-- The outer loop never returns an error made without an operand. -/
theorem configLoop_error_operand (l : List metricDefinition) (i : Nat) (s : Plc4x)
    (format : String) :
    (createRequests.configLoop [] i l s).1 ≠ some (.Errorf format []) := by
  induction l generalizing i s with
  | nil => simp [createRequests.configLoop]
  | cons c cs ih =>
    by_cases hempty : c.Fields = []
    · rw [configLoop_step_empty i c cs s hempty]
      simp
    · by_cases hunnamed : ∃ f ∈ c.Fields, f.Name = ""
      · rw [configLoop_step_unnamed i c cs s hunnamed]
        simp
      · have hnamed : ∀ f ∈ c.Fields, f.Name ≠ "" := fun f hf hname => hunnamed ⟨f, hf, hname⟩
        rw [configLoop_step_valid i c cs s hempty hnamed]
        exact ih _ _

/-- On at least one metric, the outer loop that returns no error leaves at
least one field. -/
theorem configLoop_fields_nonempty (s s2 : Plc4x) (hne : s.Configs ≠ [])
    (h : createRequests.configLoop [] 0 s.Configs s = (none, s2)) : s2.MetricFields ≠ [] := by
  have hvalid := configLoop_none_valid s.Configs 0 s (by rw [h])
  have hloop := configLoop_valid s.Configs [] 0 s hvalid
  rw [List.append_nil, h] at hloop
  simp only [createRequests.configLoop, Prod.mk.injEq, true_and] at hloop
  rw [hloop]
  cases hc : s.Configs with
  | nil => exact absurd hc hne
  | cons c cs =>
    have hcf : c.Fields ≠ [] := (hvalid c (by rw [hc]; exact List.mem_cons_self _ _)).1
    cases hf : c.Fields with
    | nil => exact absurd hf hcf
    | cons f fs => simp [mappedFields, hf]

/-- On at least one metric, `createRequests` never returns its last error, the
one made without an operand. -/
theorem createRequests_last_error (s : Plc4x) (hne : s.Configs ≠ []) :
    (createRequests s).1 ≠ some (.Errorf "no fields defined for metric %q" []) := by
  cases hl : createRequests.configLoop [] 0 s.Configs s with
  | mk e s2 =>
    cases e with
    | some err =>
      have h := configLoop_error_operand s.Configs 0 s "no fields defined for metric %q"
      rw [hl] at h
      simp only [createRequests, hl]
      exact h
    | none =>
      have hlen : s2.MetricFields.length ≠ 0 := by
        intro h0
        exact configLoop_fields_nonempty s s2 hne hl (List.length_eq_zero.mp h0)
      simp [createRequests, hl, hlen]

/-- Two tag sets have the same content when they have the same entries. -/
theorem sameTags_iff (a b : StringMap) :
    SeriesGrouper.sameTags a b = true ↔ ∀ p, p ∈ a ↔ p ∈ b := by
  simp only [SeriesGrouper.sameTags, Bool.and_eq_true, List.all_eq_true, List.contains,
    List.elem_iff]
  constructor
  · rintro ⟨h1, h2⟩ p
    exact ⟨h1 p, h2 p⟩
  · intro h
    exact ⟨fun p hp => (h p).mp hp, fun p hp => (h p).mpr hp⟩

/-- Looking a name up in two lists of entries, one after the other. -/
theorem lookup_append (l1 l2 : List (String × GoValue)) (name : String) :
    (l1 ++ l2).lookup name = (l1.lookup name).or (l2.lookup name) := by
  induction l1 with
  | nil => simp [List.lookup]
  | cons kv rest ih =>
    obtain ⟨k, v⟩ := kv
    by_cases h : name = k
    · simp [List.lookup, h]
    · have hb : (name == k) = false := by simpa using h
      simp [List.lookup, hb, ih]

/-- Looking a name up after a field was stored. -/
theorem setField_lookup (field : String) (value : GoValue) (l : List (String × GoValue))
    (name : String) :
    (SeriesGrouper.setField field value l).lookup name =
      if name = field then some value else l.lookup name := by
  induction l with
  | nil =>
    by_cases h : name = field
    · simp [SeriesGrouper.setField, List.lookup, h]
    · have hb : (name == field) = false := by simpa using h
      simp [SeriesGrouper.setField, List.lookup, h, hb]
  | cons kv rest ih =>
    obtain ⟨k, v⟩ := kv
    by_cases hk : k = field
    · by_cases h : name = field
      · simp [SeriesGrouper.setField, List.lookup, hk, h]
      · have hb : (name == field) = false := by simpa using h
        simp [SeriesGrouper.setField, List.lookup, hk, h, hb]
    · by_cases hn : name = k
      · have hne : ¬ name = field := by rw [hn]; exact hk
        simp [SeriesGrouper.setField, List.lookup, hk, hn]
      · have hb : (name == k) = false := by simpa using hn
        simp [SeriesGrouper.setField, List.lookup, hk, hb, ih]

/-- The names of a field map after a field was stored. -/
theorem setField_keys (field : String) (value : GoValue) (l : List (String × GoValue)) :
    (SeriesGrouper.setField field value l).map Prod.fst =
      if field ∈ l.map Prod.fst then l.map Prod.fst else l.map Prod.fst ++ [field] := by
  induction l with
  | nil => simp [SeriesGrouper.setField]
  | cons kv rest ih =>
    obtain ⟨k, v⟩ := kv
    by_cases hk : k = field
    · simp [SeriesGrouper.setField, hk]
    · have hk2 : ¬ field = k := fun h => hk h.symm
      by_cases hmem : field ∈ rest.map Prod.fst
      · rw [if_pos hmem] at ih
        have : field ∈ ((k, v) :: rest).map Prod.fst := by
          simp only [List.map_cons, List.mem_cons]
          exact Or.inr hmem
        rw [if_pos this]
        simp [SeriesGrouper.setField, hk, ih]
      · rw [if_neg hmem] at ih
        have : ¬ field ∈ ((k, v) :: rest).map Prod.fst := by
          simp only [List.map_cons, List.mem_cons, not_or]
          exact ⟨hk2, hmem⟩
        rw [if_neg this]
        simp [SeriesGrouper.setField, hk, ih]

/-- Storing a field keeps the names of a field map distinct. -/
theorem setField_nodup (field : String) (value : GoValue) (l : List (String × GoValue))
    (h : (l.map Prod.fst).Nodup) : ((SeriesGrouper.setField field value l).map Prod.fst).Nodup := by
  rw [setField_keys]
  split
  · exact h
  · next hmem =>
    rw [List.nodup_append]
    refine ⟨h, List.nodup_singleton _, ?_⟩
    intro a ha hb
    rw [List.mem_singleton] at hb
    exact hmem (hb ▸ ha)

/-- Storing the fields of readings keeps the names of a field map distinct. -/
theorem storeFields_nodup (rs : List (String × StringMap × Nat × String × GoValue))
    (fields : List (String × GoValue)) (h : (fields.map Prod.fst).Nodup) :
    ((storeFields fields rs).map Prod.fst).Nodup := by
  induction rs generalizing fields with
  | nil => exact h
  | cons r rest ih => exact ih _ (setField_nodup _ _ _ h)

/-- After the fields of readings were stored, a name holds the value of the
last reading of that name, or what it held before. -/
theorem storeFields_lookup (rs : List (String × StringMap × Nat × String × GoValue))
    (fields : List (String × GoValue)) (name : String) :
    (storeFields fields rs).lookup name =
      ((rs.map readingField).reverse.lookup name).or (fields.lookup name) := by
  induction rs generalizing fields with
  | nil => simp [storeFields, List.lookup]
  | cons r rest ih =>
    have hstep : storeFields fields (r :: rest) =
        storeFields (SeriesGrouper.setField r.2.2.2.1 r.2.2.2.2 fields) rest := rfl
    rw [hstep, ih, setField_lookup, List.map_cons, List.reverse_cons, lookup_append]
    cases hl : (rest.map readingField).reverse.lookup name with
    | some value => simp
    | none =>
      by_cases hn : name = r.2.2.2.1
      · simp [List.lookup, readingField, hn]
      · have hb : (name == r.2.2.2.1) = false := by simpa using hn
        simp [List.lookup, readingField, hn, hb]

/-- A found entry is an entry of the list. -/
theorem lookup_some_mem (l : List (String × GoValue)) (name : String) (value : GoValue)
    (h : l.lookup name = some value) : (name, value) ∈ l := by
  induction l with
  | nil => simp [List.lookup] at h
  | cons kv rest ih =>
    obtain ⟨k, v⟩ := kv
    by_cases hk : name = k
    · simp only [List.lookup, hk, beq_self_eq_true, Option.some.injEq] at h
      simp [hk, h]
    · have hb : (name == k) = false := by simpa using hk
      simp only [List.lookup, hb] at h
      exact List.mem_cons_of_mem _ (ih h)

/-- The name of an entry of the list is found. -/
theorem lookup_of_mem (l : List (String × GoValue)) (name : String) (value : GoValue)
    (h : (name, value) ∈ l) : ∃ found, l.lookup name = some found := by
  induction l with
  | nil => simp at h
  | cons kv rest ih =>
    obtain ⟨k, v⟩ := kv
    by_cases hk : name = k
    · exact ⟨v, by simp [List.lookup, hk]⟩
    · have hb : (name == k) = false := by simpa using hk
      rcases List.mem_cons.mp h with heq | hrest
      · exact absurd (congrArg Prod.fst heq) hk
      · obtain ⟨found, hfound⟩ := ih hrest
        exact ⟨found, by simp [List.lookup, hb, hfound]⟩

/-- Among entries of distinct names, an entry is the one found under its
name. -/
theorem lookup_of_mem_nodup (l : List (String × GoValue)) (name : String) (value : GoValue)
    (hnodup : (l.map Prod.fst).Nodup) (h : (name, value) ∈ l) : l.lookup name = some value := by
  induction l with
  | nil => simp at h
  | cons kv rest ih =>
    obtain ⟨k, v⟩ := kv
    rw [List.map_cons, List.nodup_cons] at hnodup
    rcases List.mem_cons.mp h with heq | hrest
    · have h1 : name = k := congrArg Prod.fst heq
      have h2 : value = v := congrArg Prod.snd heq
      simp [List.lookup, h1, h2]
    · have hk : ¬ name = k := by
        intro hk
        apply hnodup.1
        rw [← hk]
        exact List.mem_map.mpr ⟨(name, value), hrest, rfl⟩
      have hb : (name == k) = false := by simpa using hk
      simp [List.lookup, hb, ih hnodup.2 hrest]

/-- The readings of a response are those of the fields that read OK with a
value that converts. -/
theorem mem_readingsOf (response : PlcReadResponse) (timestamp : Nat)
    (fields : List metricFieldDefinition) (r : String × StringMap × Nat × String × GoValue) :
    r ∈ readingsOf response timestamp fields ↔
      ∃ b ∈ fields, response.GetResponseCode b.Name = .OK ∧
        ∃ value, convertSimpleValue (response.GetValue b.Name) = some value ∧
          r = (b.Mapping.measurement, b.Mapping.tags, timestamp, b.Mapping.field, value) := by
  simp only [readingsOf, List.mem_filterMap]
  constructor
  · rintro ⟨b, hb, hr⟩
    by_cases hcode : response.GetResponseCode b.Name = .OK
    · rw [if_pos hcode] at hr
      cases hv : convertSimpleValue (response.GetValue b.Name) with
      | none => simp [hv] at hr
      | some value =>
        rw [hv] at hr
        exact ⟨b, hb, hcode, value, hv, (Option.some.inj hr).symm⟩
    · rw [if_neg hcode] at hr
      exact Option.noConfusion hr
  · rintro ⟨b, hb, hcode, value, hv, rfl⟩
    exact ⟨b, hb, by simp [hcode, hv]⟩

/-- A reading that matches the only metric of the grouper joins it. -/
theorem addReading_single (m : Metric) (r : String × StringMap × Nat × String × GoValue)
    (h : m.measurement = r.1 ∧ SeriesGrouper.sameTags m.tags r.2.1 = true ∧ m.tm = r.2.2.1) :
    addReading { metrics := [m] } r =
      { metrics := [{ m with fields := SeriesGrouper.setField r.2.2.2.1 r.2.2.2.2 m.fields }] } := by
  simp [addReading, SeriesGrouper.Add, SeriesGrouper.addTo, h.1, h.2.1, h.2.2]

/-- Readings that all match the only metric of the grouper all join it. -/
theorem foldl_addReading_single (rs : List (String × StringMap × Nat × String × GoValue))
    (m : Metric)
    (h : ∀ r ∈ rs, m.measurement = r.1 ∧ SeriesGrouper.sameTags m.tags r.2.1 = true ∧
      m.tm = r.2.2.1) :
    rs.foldl addReading { metrics := [m] } =
      { metrics := [{ m with fields := storeFields m.fields rs }] } := by
  induction rs generalizing m with
  | nil => rfl
  | cons r rest ih =>
    have hr := h r (List.mem_cons_self _ _)
    have hrest : ∀ q ∈ rest, m.measurement = q.1 ∧ SeriesGrouper.sameTags m.tags q.2.1 = true ∧
        m.tm = q.2.2.1 := fun q hq => h q (List.mem_cons_of_mem _ hq)
    rw [List.foldl_cons, addReading_single m r hr,
      ih { m with fields := SeriesGrouper.setField r.2.2.2.1 r.2.2.2.2 m.fields } hrest]
    rfl

/-- Readings of one measurement, tag content and timestamp, at least one,
make one metric, of the first reading's measurement, tags and timestamp and of
the fields stored one after the other. -/
theorem foldl_addReading_new (r : String × StringMap × Nat × String × GoValue)
    (rest : List (String × StringMap × Nat × String × GoValue))
    (h : ∀ q ∈ rest, r.1 = q.1 ∧ SeriesGrouper.sameTags r.2.1 q.2.1 = true ∧ r.2.2.1 = q.2.2.1) :
    ((r :: rest).foldl addReading NewSeriesGrouper).Metrics =
      [{ measurement := r.1, tags := r.2.1, tm := r.2.2.1,
         fields := storeFields [] (r :: rest) }] := by
  have hfirst : addReading NewSeriesGrouper r =
      { metrics := [{ measurement := r.1, tags := r.2.1, tm := r.2.2.1,
                      fields := [(r.2.2.2.1, r.2.2.2.2)] }] } := rfl
  rw [List.foldl_cons, hfirst, foldl_addReading_single rest _ h]
  rfl

/-! ## Mappings, Init, Start, the grouped metric and the conversion: the claims -/

/-- C11: after a `createRequests` that returns no error, `MetricFields` is the
fields the plugin held before, followed by the fields of the metrics in
declaration order, each with the mapping of its metric: the measurement is the
name of the metric, `plc4x` when that name is empty, the field is the name of
the entry and the tags are the tags of the metric; so on a plugin that held no
field before, every entry carries such a mapping. `Configs` is the
configuration with every empty metric name replaced by `plc4x`, and nothing
else of the plugin has changed. -/
theorem createRequests_mappings (s : Plc4x) (hok : (createRequests s).1 = none) :
    (createRequests s).2.MetricFields =
      s.MetricFields ++ s.Configs.flatMap (fun cfg => cfg.Fields.map (fun f =>
        { Name := f.Name, Address := f.Address,
          Mapping := { measurement := (if cfg.Name = "" then "plc4x" else cfg.Name),
                       field := f.Name, tags := cfg.Tags } })) ∧
    (s.MetricFields = [] → ∀ e ∈ (createRequests s).2.MetricFields,
      ∃ cfg ∈ s.Configs, ∃ f ∈ cfg.Fields, e.Name = f.Name ∧ e.Address = f.Address ∧
        e.Mapping.measurement = (if cfg.Name = "" then "plc4x" else cfg.Name) ∧
        e.Mapping.field = e.Name ∧ e.Mapping.tags = cfg.Tags) ∧
    (createRequests s).2.Configs =
      s.Configs.map (fun cfg => if cfg.Name = "" then { cfg with Name := "plc4x" } else cfg) ∧
    (createRequests s).2 =
      { s with MetricFields := (createRequests s).2.MetricFields,
               Configs := (createRequests s).2.Configs } := by
  have hsucc := createRequests_success s hok
  have hname : (fun cfg : metricDefinition =>
        if cfg.Name = "" then { cfg with Name := "plc4x" } else cfg) =
      (fun c => { c with Name := defaultName c.Name }) := by
    funext cfg
    by_cases h : cfg.Name = "" <;> simp [defaultName, h]
  rw [hname, hsucc]
  refine ⟨rfl, ?_, rfl, rfl⟩
  intro hempty e he
  simp only [hempty, List.nil_append, List.mem_flatMap, mappedFields, List.mem_map] at he
  obtain ⟨cfg, hcfg, f, hf, rfl⟩ := he
  exact ⟨cfg, hcfg, f, hf, rfl, rfl, rfl, rfl, rfl⟩

/-- C11 at `exampleValid`. -/
theorem createRequests_mappings_witness :
    (createRequests exampleValid).2.MetricFields =
      [{ Name := "a", Address := "x",
         Mapping := { measurement := "m", field := "a", tags := [("unit", "1")] } },
       { Name := "b", Address := "y",
         Mapping := { measurement := "m", field := "b", tags := [("unit", "1")] } },
       { Name := "c", Address := "z",
         Mapping := { measurement := "plc4x", field := "c", tags := [] } }] ∧
    (∀ e ∈ (createRequests exampleValid).2.MetricFields,
      ∃ cfg ∈ exampleValid.Configs, ∃ f ∈ cfg.Fields, e.Name = f.Name ∧ e.Address = f.Address ∧
        e.Mapping.measurement = (if cfg.Name = "" then "plc4x" else cfg.Name) ∧
        e.Mapping.field = e.Name ∧ e.Mapping.tags = cfg.Tags) ∧
    (createRequests exampleValid).2.Configs =
      [{ Name := "m", Fields := [{ Name := "a", Address := "x" }, { Name := "b", Address := "y" }],
         Tags := [("unit", "1")] },
       { Name := "plc4x", Fields := [{ Name := "c", Address := "z" }] }] ∧
    (createRequests exampleValid).2 =
      { exampleValid with MetricFields := (createRequests exampleValid).2.MetricFields,
                          Configs := (createRequests exampleValid).2.Configs } :=
  ⟨(createRequests_mappings exampleValid (by decide)).1,
   (createRequests_mappings exampleValid (by decide)).2.1 rfl,
   (createRequests_mappings exampleValid (by decide)).2.2.1,
   (createRequests_mappings exampleValid (by decide)).2.2.2⟩

/-- C12: `convertSimpleValue` returns no value for every null value and for
every value of which no kind predicate holds; and in a cycle whose read
delivers a response, `Gather` returns no error and hands to the grouper the
readings of the fields other than those whose value is null or without a kind:
such a field adds nothing to the grouper. -/
theorem convertSimpleValue_and_Gather_no_value :
    (∀ value : PlcValue, value.IsNull = true → convertSimpleValue value = none) ∧
    (∀ value : PlcValue, (∀ k, value.is k = false) → convertSimpleValue value = none) ∧
    (∀ (s : Plc4x) (now : Nat) (exec : Nat → SelectCase) (crc : PlcConnectionConnectResult)
      (request : PlcReadRequest) (rrr : PlcReadRequestResult) (response : PlcReadResponse),
      s.ReadRequest = some request → exec 0 = .received rrr → rrr.GetErr = none →
      rrr.GetResponse = some response →
      (Gather s now exec crc).outcome = .returned none ∧
      grouped (Gather s now exec crc).actions =
        readingsOf response now
          (s.MetricFields.filter (fun b => !(response.GetValue b.Name).hasNoKind))) := by
  refine ⟨convertSimpleValue_null, convertSimpleValue_kindless, ?_⟩
  intro s now exec crc request rrr response hreq hexec herr hresp
  rw [readingsOf_filter, Gather_grouped s now exec crc request rrr response hreq hexec herr hresp,
    Gather_of_response s now exec crc request rrr response hreq hexec herr hresp]
  exact ⟨rfl, rfl⟩

/-- C12 at the null value, at `exampleNoKind`, and at `exampleReady` with a
read that delivers `exampleResponseNoValue`. -/
theorem convertSimpleValue_and_Gather_no_value_witness :
    convertSimpleValue { IsNull := true } = none ∧
    convertSimpleValue exampleNoKind = none ∧
    (Gather exampleReady 1000 exampleExecNoValue exampleConnected).outcome = .returned none ∧
    grouped (Gather exampleReady 1000 exampleExecNoValue exampleConnected).actions =
      readingsOf exampleResponseNoValue 1000
        (exampleReady.MetricFields.filter
          (fun b => !(exampleResponseNoValue.GetValue b.Name).hasNoKind)) ∧
    grouped (Gather exampleReady 1000 exampleExecNoValue exampleConnected).actions =
      [("plc4x", [], 1000, "c", .bool true)] :=
  ⟨convertSimpleValue_and_Gather_no_value.1 { IsNull := true } rfl,
   convertSimpleValue_and_Gather_no_value.2.1 exampleNoKind (by intro k; cases k <;> rfl),
   (convertSimpleValue_and_Gather_no_value.2.2 exampleReady 1000 exampleExecNoValue
      exampleConnected { tagAddresses := [("a", "x"), ("b", "y"), ("c", "z")] }
      { GetErr := none, GetResponse := some exampleResponseNoValue } exampleResponseNoValue
      (by decide) rfl rfl rfl).1,
   (convertSimpleValue_and_Gather_no_value.2.2 exampleReady 1000 exampleExecNoValue
      exampleConnected { tagAddresses := [("a", "x"), ("b", "y"), ("c", "z")] }
      { GetErr := none, GetResponse := some exampleResponseNoValue } exampleResponseNoValue
      (by decide) rfl rfl rfl).2,
   by decide⟩

/-- C13: with a driver manager in place, `Start` on a connection that cannot
read returns the error that the connection does not support read operations,
makes no call but the connection attempt (no builder is asked for and nothing
is built) and leaves the plugin, and so `ReadRequest`, as it was; and when the
connection attempt fails, `Start` returns the connect error with the text of
the failure, after the same single call and with the plugin as it was. -/
theorem Start_without_build (s : Plc4x) (crc : PlcConnectionConnectResult)
    (drivers : List Driver) (hdm : s.DriverManager = some drivers) :
    (∀ connection, crc.GetErr = none → crc.GetConnection = some connection →
      connection.CanRead = false →
      (Start s crc).outcome = .returned (some (.Errorf
        "This connection %s doesn't support read operations" [s.Url])) ∧
      (Start s crc).actions = [.GetConnection s.Url] ∧
      (Start s crc).plugin = s) ∧
    (∀ text, crc.GetErr = some text →
      (Start s crc).outcome = .returned (some (.Errorf "error connecting to PLC: %s" [text])) ∧
      (Start s crc).actions = [.GetConnection s.Url] ∧
      (Start s crc).plugin = s) := by
  constructor
  · intro connection hnil hconnection hread
    simp [Start, hdm, hnil, hconnection, hread]
  · intro text herr
    simp [Start, hdm, herr]

/-- C13 at `exampleReady`, with a connection that cannot read and with a
connection attempt that fails. -/
theorem Start_without_build_witness :
    ((Start exampleReady exampleCannotRead).outcome = .returned (some (.Errorf
        "This connection %s doesn't support read operations" ["s7://host"])) ∧
      (Start exampleReady exampleCannotRead).actions = [.GetConnection "s7://host"] ∧
      (Start exampleReady exampleCannotRead).plugin = exampleReady) ∧
    ((Start exampleReady exampleConnectFails).outcome =
        .returned (some (.Errorf "error connecting to PLC: %s" ["connection refused"])) ∧
      (Start exampleReady exampleConnectFails).actions = [.GetConnection "s7://host"] ∧
      (Start exampleReady exampleConnectFails).plugin = exampleReady) :=
  ⟨(Start_without_build exampleReady exampleCannotRead [.S7] (by decide)).1
      { CanRead := false, Build := fun pairs => .ok { tagAddresses := pairs } } rfl rfl rfl,
   (Start_without_build exampleReady exampleConnectFails [.S7] (by decide)).2
      "connection refused" rfl⟩

/-- C14: in a cycle whose read delivers a response, when at least one field
reads OK with a value that converts, and all such fields have the same
measurement and tags of the same content, `Gather` hands exactly one metric to
the accumulator. The metric has that measurement, tags of that content and the
timestamp of the cycle; its field names are distinct and a name holds the value
of the last reading of that name; every entry is a field that read OK, with its
converted value; and when the mapping of each field names the field itself, as
`createRequests` sets it, every field that read OK with a value that converts
is an entry, with its converted value. -/
theorem Gather_one_metric (s : Plc4x) (now : Nat) (exec : Nat → SelectCase)
    (crc : PlcConnectionConnectResult) (request : PlcReadRequest)
    (rrr : PlcReadRequestResult) (response : PlcReadResponse)
    (measurement : String) (tags : StringMap)
    (hreq : s.ReadRequest = some request) (hexec : exec 0 = .received rrr)
    (herr : rrr.GetErr = none) (hresp : rrr.GetResponse = some response)
    (hsome : ∃ b ∈ s.MetricFields, response.GetResponseCode b.Name = .OK ∧
      convertSimpleValue (response.GetValue b.Name) ≠ none)
    (hsame : ∀ b ∈ s.MetricFields, response.GetResponseCode b.Name = .OK →
      convertSimpleValue (response.GetValue b.Name) ≠ none →
      b.Mapping.measurement = measurement ∧
        SeriesGrouper.sameTags tags b.Mapping.tags = true) :
    ∃ metric, emitted (Gather s now exec crc).actions = [metric] ∧
      metric.measurement = measurement ∧
      SeriesGrouper.sameTags tags metric.tags = true ∧
      metric.tm = now ∧
      (metric.fields.map Prod.fst).Nodup ∧
      (∀ name, metric.fields.lookup name =
        ((readingsOf response now s.MetricFields).map readingField).reverse.lookup name) ∧
      (∀ name value, (name, value) ∈ metric.fields →
        ∃ b ∈ s.MetricFields, response.GetResponseCode b.Name = .OK ∧
          convertSimpleValue (response.GetValue b.Name) = some value ∧
          b.Mapping.field = name) ∧
      ((∀ b ∈ s.MetricFields, b.Mapping.field = b.Name) →
        ∀ b ∈ s.MetricFields, ∀ value, response.GetResponseCode b.Name = .OK →
          convertSimpleValue (response.GetValue b.Name) = some value →
          (b.Mapping.field, value) ∈ metric.fields) := by
  have hemit := Gather_emitted s now exec crc request rrr response hreq hexec herr hresp
  have hkey : ∀ r ∈ readingsOf response now s.MetricFields,
      r.1 = measurement ∧ SeriesGrouper.sameTags tags r.2.1 = true ∧ r.2.2.1 = now := by
    intro r hr
    obtain ⟨b, hb, hcode, value, hv, rfl⟩ := (mem_readingsOf response now s.MetricFields r).mp hr
    have := hsame b hb hcode (by rw [hv]; simp)
    exact ⟨this.1, this.2, rfl⟩
  cases hrs : readingsOf response now s.MetricFields with
  | nil =>
    obtain ⟨b, hb, hcode, hv⟩ := hsome
    cases hval : convertSimpleValue (response.GetValue b.Name) with
    | none => exact absurd hval hv
    | some value =>
      have hmem := (mem_readingsOf response now s.MetricFields
        (b.Mapping.measurement, b.Mapping.tags, now, b.Mapping.field, value)).mpr
        ⟨b, hb, hcode, value, hval, rfl⟩
      rw [hrs] at hmem
      simp at hmem
  | cons r rest =>
    rw [hrs] at hkey hemit
    have hr := hkey r (List.mem_cons_self _ _)
    have hrest : ∀ q ∈ rest, r.1 = q.1 ∧ SeriesGrouper.sameTags r.2.1 q.2.1 = true ∧
        r.2.2.1 = q.2.2.1 := by
      intro q hq
      have hq2 := hkey q (List.mem_cons_of_mem _ hq)
      refine ⟨hr.1.trans hq2.1.symm, ?_, hr.2.2.trans hq2.2.2.symm⟩
      rw [sameTags_iff]
      intro p
      exact ((sameTags_iff tags r.2.1).mp hr.2.1 p).symm.trans
        ((sameTags_iff tags q.2.1).mp hq2.2.1 p)
    rw [foldl_addReading_new r rest hrest] at hemit
    have hnodup : ((storeFields [] (r :: rest)).map Prod.fst).Nodup :=
      storeFields_nodup (r :: rest) [] (by simp)
    have hlookup : ∀ name, (storeFields [] (r :: rest)).lookup name =
        (((r :: rest).map readingField).reverse.lookup name) := by
      intro name
      rw [storeFields_lookup]
      simp [List.lookup]
    refine ⟨_, hemit, hr.1, hr.2.1, hr.2.2, hnodup, hlookup, ?_, ?_⟩
    · intro name value hmem
      have h1 := lookup_of_mem_nodup _ name value hnodup hmem
      rw [hlookup] at h1
      have h2 := lookup_some_mem _ name value h1
      rw [List.mem_reverse, List.mem_map] at h2
      obtain ⟨q, hq, hqf⟩ := h2
      rw [← hrs] at hq
      obtain ⟨b, hb, hcode, v, hv, rfl⟩ := (mem_readingsOf response now s.MetricFields q).mp hq
      simp only [readingField, Prod.mk.injEq] at hqf
      exact ⟨b, hb, hcode, by rw [hv, hqf.2], hqf.1⟩
    · intro hmap b hb value hcode hv
      have hmem : (b.Mapping.field, value) ∈ ((r :: rest).map readingField).reverse := by
        rw [List.mem_reverse, List.mem_map, ← hrs]
        exact ⟨_, (mem_readingsOf response now s.MetricFields _).mpr
          ⟨b, hb, hcode, value, hv, rfl⟩, rfl⟩
      obtain ⟨found, hfound⟩ := lookup_of_mem _ _ _ hmem
      have h2 := lookup_some_mem _ _ _ hfound
      rw [List.mem_reverse, List.mem_map] at h2
      obtain ⟨q, hq, hqf⟩ := h2
      rw [← hrs] at hq
      obtain ⟨c, hc, _, v, hcv, rfl⟩ := (mem_readingsOf response now s.MetricFields q).mp hq
      simp only [readingField, Prod.mk.injEq] at hqf
      have hname : c.Name = b.Name := by rw [← hmap c hc, ← hmap b hb]; exact hqf.1
      rw [hname, hv] at hcv
      have hvalue : found = value := by rw [← hqf.2]; exact (Option.some.inj hcv).symm
      apply lookup_some_mem
      rw [hlookup, hfound, hvalue]

/-- C14 at `exampleOneMetric`: with `temp` read as 21.5 and `level` at a bad
address the one metric holds `temp` alone, and with both fields read the one
metric holds both. -/
theorem Gather_one_metric_witness :
    (∃ metric, emitted (Gather exampleOneMetric 1000 exampleExecOneOk exampleConnected).actions =
        [metric] ∧
      metric.measurement = "m" ∧
      SeriesGrouper.sameTags [("unit", "1")] metric.tags = true ∧
      metric.tm = 1000 ∧
      (∀ name value, (name, value) ∈ metric.fields →
        ∃ b ∈ exampleOneMetric.MetricFields,
          exampleResponseOneOk.GetResponseCode b.Name = .OK ∧
          convertSimpleValue (exampleResponseOneOk.GetValue b.Name) = some value ∧
          b.Mapping.field = name)) ∧
    emitted (Gather exampleOneMetric 1000 exampleExecOneOk exampleConnected).actions =
      [{ measurement := "m", tags := [("unit", "1")], tm := 1000,
         fields := [("temp", .float64 4626744929681408000)] }] ∧
    emitted (Gather exampleOneMetric 1000 exampleExecBothOk exampleConnected).actions =
      [{ measurement := "m", tags := [("unit", "1")], tm := 1000,
         fields := [("temp", .float64 4626744929681408000), ("level", .int32 7)] }] := by
  obtain ⟨metric, h1, h2, h3, h4, _, _, h7, _⟩ :=
    Gather_one_metric exampleOneMetric 1000 exampleExecOneOk exampleConnected
      { tagAddresses := [("temp", "x"), ("level", "y")] }
      { GetErr := none, GetResponse := some exampleResponseOneOk } exampleResponseOneOk
      "m" [("unit", "1")] (by decide) rfl rfl rfl (by decide) (by decide)
  exact ⟨⟨metric, h1, h2, h3, h4, h7⟩, by decide, by decide⟩

/-- C15: `Init` returns an error exactly when the schema is empty, the domain
name is empty, no metric is configured, the schema is not one of `ads`,
`bacnet-ip`, `c-bus`, `eip`, `knxnet-ip`, `modbus-tcp`, `opcua`, `s7`, or
`createRequests` returns an error. The first four checks decide the error in
that order, whatever the metric configuration, and past them the error of
`Init` is that of `createRequests`. -/
theorem Init_error_iff (s : Plc4x) :
    ((Init s).1 ≠ none ↔
      s.Schema = "" ∨ s.DomainName = "" ∨ s.Configs = [] ∨
      s.Schema ∉ Init.supportedSchemas ∨ (createRequests s).1 ≠ none) ∧
    (s.Schema = "" → (Init s).1 = some (.New "'schema' has to be specified")) ∧
    (s.Schema ≠ "" → s.DomainName = "" →
      (Init s).1 = some (.New "'domain_name' has to be specified")) ∧
    (s.Schema ≠ "" → s.DomainName ≠ "" → s.Configs = [] →
      (Init s).1 = some (.New "no metric defined")) ∧
    (s.Schema ≠ "" → s.DomainName ≠ "" → s.Configs ≠ [] →
      s.Schema ∉ Init.supportedSchemas →
      (Init s).1 = some (.New "unsupported protocol types")) ∧
    (s.Schema ≠ "" → s.DomainName ≠ "" → s.Configs ≠ [] →
      s.Schema ∈ Init.supportedSchemas → (Init s).1 = (createRequests s).1) := by
  have h1 : s.Schema = "" → (Init s).1 = some (.New "'schema' has to be specified") := by
    intro h
    simp [Init, h]
  have h2 : s.Schema ≠ "" → s.DomainName = "" →
      (Init s).1 = some (.New "'domain_name' has to be specified") := by
    intro hs hd
    simp [Init, hs, hd]
  have h3 : s.Schema ≠ "" → s.DomainName ≠ "" → s.Configs = [] →
      (Init s).1 = some (.New "no metric defined") := by
    intro hs hd hc
    simp [Init, hs, hd, hc]
  have h4 : s.Schema ≠ "" → s.DomainName ≠ "" → s.Configs ≠ [] →
      s.Schema ∉ Init.supportedSchemas →
      (Init s).1 = some (.New "unsupported protocol types") := by
    intro hs hd hc hu
    have hnone := (registerDriver_none_iff s.Schema).mpr hu
    have hlen : s.Configs.length ≠ 0 := by simpa using hc
    simp [Init, hs, hd, hlen, hnone]
  have h5 : s.Schema ≠ "" → s.DomainName ≠ "" → s.Configs ≠ [] →
      s.Schema ∈ Init.supportedSchemas → (Init s).1 = (createRequests s).1 := by
    intro hs hd hc hsup
    have hlen : s.Configs.length ≠ 0 := by simpa using hc
    cases hreg : Init.registerDriver s.Schema with
    | none => exact absurd hsup ((registerDriver_none_iff s.Schema).mp hreg)
    | some driver =>
      simp only [Init, hs, hd, hlen, hreg, if_false]
      exact createRequests_congr _ _ rfl rfl
  refine ⟨?_, h1, h2, h3, h4, h5⟩
  by_cases hs : s.Schema = ""
  · simp [h1 hs, hs]
  by_cases hd : s.DomainName = ""
  · simp [h2 hs hd, hd]
  by_cases hc : s.Configs = []
  · simp [h3 hs hd hc, hc]
  by_cases hsup : s.Schema ∈ Init.supportedSchemas
  · simp [h5 hs hd hc hsup, hs, hd, hc, hsup]
  · simp [h4 hs hd hc hsup, hsup]

/-- C15 at an empty schema, at an empty list of metrics, at an empty domain
name and at an unknown schema on a metric configuration that `createRequests`
rejects, and at a supported schema. -/
theorem Init_error_iff_witness :
    (Init { exampleValid with Schema := "" }).1 = some (.New "'schema' has to be specified") ∧
    (Init { exampleOnlyEmpty with DomainName := "" }).1 =
      some (.New "'domain_name' has to be specified") ∧
    (Init { exampleValid with Configs := [] }).1 = some (.New "no metric defined") ∧
    (Init { exampleOnlyEmpty with Schema := "profinet" }).1 =
      some (.New "unsupported protocol types") ∧
    (Init exampleOnlyEmpty).1 = (createRequests exampleOnlyEmpty).1 :=
  ⟨(Init_error_iff { exampleValid with Schema := "" }).2.1 rfl,
   (Init_error_iff { exampleOnlyEmpty with DomainName := "" }).2.2.1 (by decide) rfl,
   (Init_error_iff { exampleValid with Configs := [] }).2.2.2.1 (by decide) (by decide) rfl,
   (Init_error_iff { exampleOnlyEmpty with Schema := "profinet" }).2.2.2.2.1 (by decide)
     (by decide) (by decide) (by decide),
   (Init_error_iff exampleOnlyEmpty).2.2.2.2.2 (by decide) (by decide) (by decide) (by decide)⟩

/-- C16: for a value of exactly one kind other than 16-bit signed and 32-bit
unsigned, `convertSimpleValue` returns the result of the extractor of that
kind, which is not the nil result. -/
theorem convertSimpleValue_own_extractor (value : PlcValue) (k : Kind)
    (hkind : value.hasSingleKind k = true) (h16 : k ≠ .int16) (h32 : k ≠ .uint32) :
    convertSimpleValue value = some (value.get k) ∧ convertSimpleValue value ≠ none := by
  obtain ⟨hnull, hall⟩ := hasSingleKind_spec value k hkind
  have hbool := hall .bool
  have hbyte := hall .byte
  have huint8 := hall .uint8
  have hint8 := hall .int8
  have hint16 := hall .int16
  have hint32 := hall .int32
  have hint64 := hall .int64
  have huint32 := hall .uint32
  have huint64 := hall .uint64
  have hfloat32 := hall .float32
  have hfloat64 := hall .float64
  have hstring := hall .string
  have htime := hall .time
  have hduration := hall .duration
  have hdate := hall .date
  have hdateTime := hall .dateTime
  simp only [PlcValue.is] at hbool hbyte huint8 hint8 hint16 hint32 hint64 huint32 huint64
  simp only [PlcValue.is] at hfloat32 hfloat64 hstring htime hduration hdate hdateTime
  cases k <;>
    simp_all [convertSimpleValue, PlcValue.get]

/-- C16 at `exampleFloat32`: the 32-bit float 3.5 comes back as the float32
of the same bits. -/
theorem convertSimpleValue_own_extractor_witness :
    convertSimpleValue exampleFloat32 = some (.float32 1080033280) ∧
    convertSimpleValue exampleFloat32 ≠ none :=
  convertSimpleValue_own_extractor exampleFloat32 .float32 (by decide) (by decide) (by decide)

/-- C17: for the schema `c-bus`, `Init` succeeds and registers the BACnet
driver, the one it registers for `bacnet-ip`, not the C-Bus driver. -/
theorem Init_registers_bacnet_for_cbus :
    (Init exampleCBus).1 = none ∧
    (Init exampleCBus).2.DriverManager = some [.Bacnet] ∧
    (Init exampleCBus).2.DriverManager ≠ some [.CBus] ∧
    (Init { exampleValid with Schema := "bacnet-ip" }).2.DriverManager = some [.Bacnet] := by
  decide

/-- C18: `Init` never returns the last error of `createRequests`, the one for a
plugin left without fields; and on a configuration with at least one metric, as
`Init` requires, a pass of the loop over the metrics that ends without an error
leaves at least one field. -/
theorem Init_never_last_error (s : Plc4x) :
    (Init s).1 ≠ some (.Errorf "no fields defined for metric %q" []) ∧
    (∀ s2, s.Configs ≠ [] → createRequests.configLoop [] 0 s.Configs s = (none, s2) →
      s2.MetricFields ≠ []) := by
  refine ⟨?_, fun s2 hne h => configLoop_fields_nonempty s s2 hne h⟩
  by_cases hs : s.Schema = ""
  · simp [Init, hs]
  by_cases hd : s.DomainName = ""
  · simp [Init, hs, hd]
  by_cases hc : s.Configs = []
  · simp [Init, hs, hd, hc]
  have hlen : s.Configs.length ≠ 0 := by simpa using hc
  cases hreg : Init.registerDriver s.Schema with
  | none => simp [Init, hs, hd, hlen, hreg]
  | some driver =>
    simp only [Init, hs, hd, hlen, hreg, if_false]
    exact createRequests_last_error _ hc

/-- C18 at `exampleValid`. -/
theorem Init_never_last_error_witness :
    (Init exampleValid).1 ≠ some (.Errorf "no fields defined for metric %q" []) ∧
    (createRequests.configLoop [] 0 exampleValid.Configs exampleValid).2.MetricFields ≠ [] :=
  ⟨(Init_never_last_error exampleValid).1,
   (Init_never_last_error exampleValid).2 _ (by decide) rfl⟩

/-- C19: the second `IsInt16` branch of `convertSimpleValue` (the `return` at
line 226) is dead. No value returns through it, the result being that of the
`return` statement the call does leave through; a value of which `IsInt16`
holds returns through the first `IsInt16` branch or a branch before it; and a
result of type int16 always comes from the `IsUint32` branch, on a value of
which `IsInt16` does not hold. -/
theorem convertSimpleValue_second_int16_branch_dead (value : PlcValue) :
    convertSimpleValue.returnLine value ≠ 226 ∧
    convertSimpleValue value =
      convertSimpleValue.returnedAt value (convertSimpleValue.returnLine value) ∧
    (value.IsInt16 = true →
      convertSimpleValue.returnLine value ∈ [200, 204, 208, 211, 214]) ∧
    (∀ x, convertSimpleValue value = some (.int16 x) →
      value.IsInt16 = false ∧ value.IsUint32 = true ∧ x = value.GetInt16) :=
  ⟨returnLine_ne_226 value, convertSimpleValue_returnLine value,
   returnLine_of_IsInt16 value, convertSimpleValue_int16_source value⟩

/-- C19 at `exampleInt16AndUint32`, which returns through the first `IsInt16`
branch, and at `exampleUint32`, whose int16 result comes from the `IsUint32`
branch. -/
theorem convertSimpleValue_second_int16_branch_dead_witness :
    convertSimpleValue.returnLine exampleInt16AndUint32 ≠ 226 ∧
    convertSimpleValue.returnLine exampleInt16AndUint32 ∈ [200, 204, 208, 211, 214] ∧
    (exampleUint32.IsInt16 = false ∧ exampleUint32.IsUint32 = true ∧
      (0 : Int) = exampleUint32.GetInt16) :=
  ⟨(convertSimpleValue_second_int16_branch_dead exampleInt16AndUint32).1,
   (convertSimpleValue_second_int16_branch_dead exampleInt16AndUint32).2.2.1 rfl,
   (convertSimpleValue_second_int16_branch_dead exampleUint32).2.2.2 0 (by decide)⟩

end plc4x
